import Mathlib

/-!
# Job-control shell (`shell.c`): embedding and verified properties

The shell of `shell.c` is embedded as pure functions over an explicit state
(`Shell`): the job registry, the terminal's controlling group and the trace of
every call the shell makes to the operating system, to the terminal
coordinator and to the job registry.  The operating system is an oracle
(`Env`) whose answers may depend on the whole history of calls so far.

The functions of `shell.c` (`reapChild`, `politeExit`, `shell_wait_fg`,
`shell_run_job`, `shell_builtin`) are translated from the source.  The job
registry (`joblist.h`) and the terminal coordinator (`terminal.h`) are used by
`shell.c` but their code is not part of the source tree; they are modelled
from the specification and marked as such.
-/

namespace ShellC

/-! ## Data model -/

/-- Status of a job: `JOB_STATUS_FOREGROUND`, `JOB_STATUS_BACKGROUND`,
`JOB_STATUS_STOPPED`, `JOB_STATUS_DONE`. -/
inductive JobStatus where
  | FOREGROUND
  | BACKGROUND
  | STOPPED
  | DONE
deriving DecidableEq

/-- One tracked child process. -/
structure Job where
  jid : Nat
  pid : Int
  command : List String
  status : JobStatus
deriving DecidableEq

/-- Modelled from the spec: the job registry of `joblist.h` (its code is not in
the source tree).  An ordered collection of jobs, in insertion order, plus the
designation of the current job.  A `Job*` of the C code is represented by the
job id, which the spec requires to be unique among live jobs. -/
structure JobList where
  jobs : List Job
  current : Option Nat
deriving DecidableEq

/-- Options passed to `waitpid` by the shell. -/
inductive WaitOpt where
  | WNOHANG
  | WUNTRACED
deriving DecidableEq

/-- What a wait status written by `waitpid` says about the child. The POSIX
macros `WIFEXITED`, `WIFSIGNALED`, `WIFSTOPPED` are mutually exclusive; `other`
stands for a status none of the three recognises. -/
inductive WStatus where
  | exited (code : Nat)
  | signaled (sig : Nat)
  | stopped (sig : Nat)
  | other
deriving DecidableEq

def WIFEXITED : WStatus → Bool
  | .exited _ => true
  | _ => false

def WIFSIGNALED : WStatus → Bool
  | .signaled _ => true
  | _ => false

def WIFSTOPPED : WStatus → Bool
  | .stopped _ => true
  | _ => false

/-- Every call the shell makes outside `shell.c`, in the order it is made. -/
inductive Event where
  | fork (ret : Int)
  | waitpid (pid : Int) (opt : WaitOpt) (ret : Int)
  | term_child_init (foreground : Int)
  | execvp (command : List String)
  | term_give (job : Nat)
  | term_take (job : Nat)
  | job_save (job : Nat) (pid : Int) (status : JobStatus)
  | job_set_status (job : Nat) (status : JobStatus)
  | job_delete (job : Nat)
  | job_print (job : Job)
  | joblist_free
  | perror (msg : String)
  | printf (msg : String)
  | chdir (dir : Option String)
deriving DecidableEq

/-- The operating system and C library as an oracle.  Each answer may depend
on the history of calls made so far. `execvp` answers `none` when the process
image is replaced (the call does not return). -/
structure Env where
  fork : List Event → Int
  waitpid : List Event → Int → WaitOpt → Int × WStatus
  execvp : List Event → List String → Option Int
  strtol : String → Int
  home : Option String

/-- State of the shell process. `tty` is the process group that owns the
terminal: `none` for the shell's own group, `some pgid` for a job's group. -/
structure Shell where
  jobs : JobList
  tty : Option Int
  trace : List Event
deriving DecidableEq

/-- How a call of a shell function ends: it returns, the process terminates
through `exit(code)`, an assertion fails, or the process image is replaced by a
successful `execvp`. -/
inductive Outcome (α : Type) where
  | ret (v : α) (s : Shell)
  | exit (code : Nat) (s : Shell)
  | abort (s : Shell)
  | replaced (s : Shell)
deriving DecidableEq

/-- Sequencing: the continuation runs only when the first call returns. -/
def Outcome.bind {α β : Type} (o : Outcome α) (k : α → Shell → Outcome β) : Outcome β :=
  match o with
  | .ret v s => k v s
  | .exit c s => .exit c s
  | .abort s => .abort s
  | .replaced s => .replaced s

/-- State in which a call ended, however it ended. -/
def Outcome.state {α : Type} : Outcome α → Shell
  | .ret _ s => s
  | .exit _ s => s
  | .abort s => s
  | .replaced s => s

def log (e : Event) (s : Shell) : Shell :=
  { s with trace := s.trace ++ [e] }

/-- Events appended to the trace between state `s` and a later state `t`. -/
def emitted (s t : Shell) : List Event :=
  t.trace.drop s.trace.length

/-! ## Job registry (`joblist.h`), modelled from the specification -/

/-- Modelled from the spec: the id allocation of `job_save` (`joblist.h`, not
in the source tree). Job ids are small positive integers, unique among live
jobs and reused only after deletion; the policy chosen here is one more than
the largest live id. -/
def JobList.fresh_jid (r : JobList) : Nat :=
  (r.jobs.map Job.jid).foldr max 0 + 1

/-- Modelled from the spec: the current-job rule of the registry (`joblist.h`,
not in the source tree). A job becomes current whenever it transitions into
`STOPPED` or `BACKGROUND`. -/
def designates : JobStatus → Bool
  | .STOPPED => true
  | .BACKGROUND => true
  | _ => false

/-- Modelled from the spec: `joblist_create` (`joblist.h`, not in the source
tree), the empty registry. -/
def joblist_create : JobList :=
  { jobs := [], current := none }

/-- Modelled from the spec: reading through a `Job*` handed out by the
registry (`joblist.h`, not in the source tree): the live job with that handle,
if any. -/
def JobList.deref (r : JobList) (h : Nat) : Option Job :=
  r.jobs.find? (fun j => j.jid == h)

/-- Modelled from the spec: the registry effect of `job_save` (`joblist.h`, not
in the source tree). `create(process_id, command_argv, initial_status)`
allocates a new job id and inserts the job at the end of the registry. -/
def JobList.save (r : JobList) (pid : Int) (command : List String) (st : JobStatus) :
    Nat × JobList :=
  let h := r.fresh_jid
  (h, { jobs := r.jobs ++ [{ jid := h, pid := pid, command := command, status := st }],
        current := if designates st then some h else r.current })

/-- Modelled from the spec: `job_get` (`joblist.h`, not in the source tree).
`lookup(job_id)` returns the job with that id if live, else nothing. -/
def JobList.get (r : JobList) (jid : Int) : Option Job :=
  r.jobs.find? (fun j => (j.jid : Int) == jid)

/-- Modelled from the spec: `job_get_current` (`joblist.h`, not in the source
tree). `current()` returns the job most recently designated current. -/
def JobList.get_current (r : JobList) : Option Job :=
  r.current.bind r.deref

/-- Modelled from the spec: the registry effect of `job_set_status`
(`joblist.h`, not in the source tree). `set_status(handle, new_status)` mutates
the status and updates the current designation (a job moved to `STOPPED` or
`BACKGROUND`, or re-targeted by `fg`, becomes current; a job marked `DONE` does
not). -/
def JobList.set_status (r : JobList) (h : Nat) (st : JobStatus) : JobList :=
  { jobs := r.jobs.map (fun j => if j.jid = h then { j with status := st } else j),
    current := if st = .DONE then r.current else some h }

/-- Modelled from the spec: the registry effect of `job_delete` (`joblist.h`,
not in the source tree). `delete(handle)` removes the job with that handle (ids
are unique among live jobs, so exactly that job); a deleted job is no longer
designated current. -/
def JobList.delete (r : JobList) (h : Nat) : JobList :=
  { jobs := r.jobs.filter (fun j => j.jid != h),
    current := if r.current = some h then none else r.current }

/-- Modelled from the spec: `joblist_empty` (`joblist.h`, not in the source
tree), the `is_empty()` of the registry. -/
def JobList.empty (r : JobList) : Bool :=
  r.jobs.isEmpty

/-- Registry invariant of the data model: job ids are unique among live jobs,
and every job carries the pid of a forked child (positive, as `reapChild`
asserts). -/
def JobList.wf (r : JobList) : Prop :=
  (r.jobs.map Job.jid).Nodup ∧ ∀ j ∈ r.jobs, 0 < j.pid

instance (r : JobList) : Decidable r.wf := by
  unfold JobList.wf; infer_instance

/-! ### Registry and terminal calls as made by the shell -/

/-- Modelled from the spec: a call of `job_save` (`joblist.h`, not in the
source tree): registers the job and yields its handle. -/
def job_save (pid : Int) (command : List String) (st : JobStatus) (s : Shell) : Nat × Shell :=
  let r := s.jobs.save pid command st
  (r.1, log (.job_save r.1 pid st) { s with jobs := r.2 })

/-- Modelled from the spec: a call of `job_set_status` (`joblist.h`, not in the
source tree); a handle that is not live is a programming error. -/
def job_set_status (h : Nat) (st : JobStatus) (s : Shell) : Outcome Unit :=
  match s.jobs.deref h with
  | none => .abort s
  | some _ => .ret () (log (.job_set_status h st) { s with jobs := s.jobs.set_status h st })

/-- Modelled from the spec: a call of `job_delete` (`joblist.h`, not in the
source tree); deleting a job that is not live fails loudly. -/
def job_delete (h : Nat) (s : Shell) : Outcome Unit :=
  match s.jobs.deref h with
  | none => .abort s
  | some _ => .ret () (log (.job_delete h) { s with jobs := s.jobs.delete h })

/-- Modelled from the spec: a call of `job_print` (`joblist.h`, not in the
source tree): reports the job in its current state. -/
def job_print (h : Nat) (s : Shell) : Outcome Unit :=
  match s.jobs.deref h with
  | none => .abort s
  | some j => .ret () (log (.job_print j) s)

/-- Modelled from the spec: `term_give` (`terminal.h`, not in the source tree).
`give(job)` transfers terminal ownership to the job's process group (its
pid). -/
def term_give (h : Nat) (s : Shell) : Outcome Unit :=
  match s.jobs.deref h with
  | none => .abort s
  | some j => .ret () (log (.term_give h) { s with tty := some j.pid })

/-- Modelled from the spec: `term_take` (`terminal.h`, not in the source tree).
`take(job)` transfers terminal ownership back to the shell's own process
group. -/
def term_take (h : Nat) (s : Shell) : Shell :=
  log (.term_take h) { s with tty := none }

/-- Modelled from the spec: `term_child_init` (`terminal.h`, not in the source
tree), the `child_init(foreground)` run in the forked child before it
execs. -/
def term_child_init (foreground : Int) (s : Shell) : Shell :=
  log (.term_child_init foreground) s

/-- Visits the given handles in order; stops as soon as a visit does not
return. -/
def visit (f : Nat → Shell → Outcome Unit) : List Nat → Shell → Outcome Unit
  | [], s => .ret () s
  | h :: hs, s => (f h s).bind (fun _ t => visit f hs t)

/-- Modelled from the spec: `job_iter3` (`joblist.h`, not in the source tree).
`job_iter3(jobs, arg, f)` traverses the jobs live at the start of the call in
registry order and applies `f(jobs, job, arg)` to each; the visitor may delete
the job it is visiting. -/
def job_iter3 (choice : Int) (f : Nat → Int → Shell → Outcome Unit) (s : Shell) : Outcome Unit :=
  visit (fun h t => f h choice t) (s.jobs.jobs.map Job.jid) s

/-- Modelled from the spec: `job_iter2` (`joblist.h`, not in the source tree).
`job_iter2(jobs, f)` traverses the live jobs in registry order and applies
`f(jobs, job)` to each. -/
def job_iter2 (f : Nat → Shell → Outcome Unit) (s : Shell) : Outcome Unit :=
  visit f (s.jobs.jobs.map Job.jid) s

/-! ## `shell.c` -/

/-- `reapChild(jobs, job, choice)` (shell.c:37-54). -/
def reapChild (env : Env) (job : Nat) (choice : Int) (s : Shell) : Outcome Unit :=
  match s.jobs.deref job with
  | none => .abort s
  | some j =>
    let job_pid := j.pid
    if ¬ (job_pid > 0) then .abort s
    else
      let w := (env.waitpid s.trace job_pid .WNOHANG).1
      let s1 := log (.waitpid job_pid .WNOHANG w) s
      if job_pid = w then
        (job_set_status job .DONE s1).bind fun _ s2 =>
        (if choice > 0 then job_print job s2 else .ret () s2).bind fun _ s3 =>
        job_delete job s3
      else if choice = 2 then
        job_print job s1
      else .ret () s1

/-- `politeExit(jobs, ctrlD)` (shell.c:64-81). `ctrlD` is the content of the
pointed-to flag, `none` for a NULL pointer; the returned pair is the return
value and the flag after the call. -/
def politeExit (env : Env) (ctrlD : Option Int) (s : Shell) : Outcome (Int × Option Int) :=
  (job_iter3 0 (reapChild env) s).bind fun _ s1 =>
  if ¬ s1.jobs.empty then
    let s2 := log (.printf "There are unfinished jobs.\n") s1
    (job_iter2 job_print s2).bind fun _ s3 =>
    .ret (1, ctrlD.map (fun _ => 1)) s3
  else
    .exit 0 (log .joblist_free s1)

/-- `shell_wait_fg(pid)` (shell.c:92-112). -/
def shell_wait_fg (env : Env) (pid : Int) (s : Shell) : Outcome Int :=
  let w := env.waitpid s.trace pid .WUNTRACED
  let stopCheck := w.1
  let status := w.2
  let s1 := log (.waitpid pid .WUNTRACED stopCheck) s
  if stopCheck = -1 then
    .exit 1 (log (.perror "wait") s1)
  else if stopCheck = pid then
    if WIFEXITED status || WIFSIGNALED status then .ret 0 s1
    else if WIFSTOPPED status then .ret 1 s1
    else .ret (-1) s1
  else .ret (-1) s1

/-- `shell_run_job(jobs, command, foreground, currentJob)` (shell.c:129-180).
`current` pairs the handle of the job worked on with the state after it was
obtained. -/
def shell_run_job (env : Env) (command : List String) (foreground : Int)
    (currentJob : Option Nat) (s : Shell) : Outcome Int :=
  let pid := env.fork s.trace
  let s0 := log (.fork pid) s
  if pid < 0 then
    .exit 1 (log (.perror "fork") s0)
  else if pid = 0 then
    let s1 := term_child_init foreground s0
    match env.execvp s1.trace command with
    | none => .replaced (log (.execvp command) s1)
    | some r =>
      let s2 := log (.execvp command) s1
      if r = -1 then .exit 1 (log (.perror "exec") s2)
      else .ret (-1) s2
  else
    if foreground ≠ 0 then
      let current := match currentJob with
        | none => job_save pid command .FOREGROUND s0
        | some h => (h, s0)
      (term_give current.1 current.2).bind fun _ s2 =>
      (shell_wait_fg env pid s2).bind fun waitStatus s3 =>
      let s4 := term_take current.1 s3
      if waitStatus = 0 then
        (job_delete current.1 s4).bind fun _ s5 => .ret 0 s5
      else if waitStatus = 1 then
        (job_set_status current.1 .STOPPED s4).bind fun _ s5 =>
        (job_print current.1 s5).bind fun _ s6 => .ret 1 s6
      else .ret (-1) s4
    else
      let current := match currentJob with
        | none => job_save pid command .BACKGROUND s0
        | some h => (h, s0)
      (job_print current.1 current.2).bind fun _ s2 => .ret 0 s2

def helpText : String :=
  "cd [-L|-P] [dir]\nexit\nhelp [-dms] [pattern ...]\njobs[-lnprs] [jobspec ...]\nfg [job_spec]\nbg [job_spec]\n"

def noJobText : String :=
  "Entered job ID is not valid or no background job exists.\n"

/-- `shell_builtin(jobs, command)` (shell.c:186-239). -/
def shell_builtin (env : Env) (command : List String) (s : Shell) : Outcome Int :=
  match command with
  | [] => .ret 1 s
  | word :: rest =>
    if word = "exit" then
      (politeExit env none s).bind fun _ s1 => .ret 1 s1
    else if word = "help" then
      .ret 1 (log (.printf helpText) s)
    else if word = "cd" then
      match rest with
      | dir :: _ => .ret 1 (log (.chdir (some dir)) s)
      | [] => .ret 1 (log (.chdir env.home) s)
    else if word = "jobs" then
      (job_iter3 2 (reapChild env) s).bind fun _ s1 => .ret 1 s1
    else if word = "fg" ∨ word = "bg" then
      let foreground : Int := if word = "fg" then 1 else 0
      let job := match rest with
        | arg :: _ => s.jobs.get (env.strtol arg)
        | [] => s.jobs.get_current
      match job with
      | some j =>
        (if foreground ≠ 0 then job_set_status j.jid .FOREGROUND s
         else job_set_status j.jid .BACKGROUND s).bind fun _ s1 =>
        (match s1.jobs.deref j.jid with
         | none => Outcome.abort s1
         | some j1 => shell_run_job env j1.command foreground (some j.jid) s1).bind fun _ s2 =>
        .ret 1 s2
      | none => .ret 1 (log (.printf noJobText) s)
    else .ret 0 s


/-! ## Observations on traces -/

/-- A report of a job to the user (`job_print`). -/
def Event.isPrint : Event → Bool
  | .job_print _ => true
  | _ => false

/-- A terminal handoff (`term_give` or `term_take`). -/
def Event.isTerm : Event → Bool
  | .term_give _ => true
  | .term_take _ => true
  | _ => false

/-- A wait call (`waitpid`). -/
def Event.isWait : Event → Bool
  | .waitpid _ _ _ => true
  | _ => false

/-- A message written by the shell itself (`perror` or `printf`). -/
def Event.isMessage : Event → Bool
  | .perror _ => true
  | .printf _ => true
  | _ => false

/-- Handle of the job a foreground or background launch works on: the
supplied job, or the one `job_save` is about to allocate. -/
def launchHandle (s : Shell) (currentJob : Option Nat) : Nat :=
  match currentJob with
  | none => s.jobs.fresh_jid
  | some h => h

/-- History of calls at the moment a foreground launch from state `s` blocks in
`waitpid`: the fork, the registration of the job when none was supplied, and
the terminal handoff. -/
def fgHistory (env : Env) (s : Shell) (currentJob : Option Nat) : List Event :=
  match currentJob with
  | none => s.trace ++ [.fork (env.fork s.trace),
      .job_save s.jobs.fresh_jid (env.fork s.trace) .FOREGROUND,
      .term_give s.jobs.fresh_jid]
  | some h => s.trace ++ [.fork (env.fork s.trace), .term_give h]

/-- Answer of the blocking wait of a foreground launch from state `s`. -/
def fgWait (env : Env) (s : Shell) (currentJob : Option Nat) : Int × WStatus :=
  env.waitpid (fgHistory env s currentJob) (env.fork s.trace) .WUNTRACED

/-- The wait outcome is neither termination nor suspension of the child. -/
def waitUnrecognised (pid : Int) (w : Int × WStatus) : Prop :=
  w.1 ≠ -1 ∧ (w.1 = pid → WIFEXITED w.2 = false ∧ WIFSIGNALED w.2 = false ∧ WIFSTOPPED w.2 = false)

instance (pid : Int) (w : Int × WStatus) : Decidable (waitUnrecognised pid w) := by
  unfold waitUnrecognised; infer_instance

/-! ## Concrete worlds used to exercise the definitions -/

/-- A shell that has just started: empty registry, terminal owned by the
shell, no call made yet. -/
def shell0 : Shell :=
  { jobs := joblist_create, tty := none, trace := [] }

/-- A world in which every fork yields the child `child` and every `waitpid`
on `pid` answers `w pid`. -/
def constEnv (child : Int) (w : Int → Int × WStatus) : Env :=
  { fork := fun _ => child
    waitpid := fun _ pid _ => w pid
    execvp := fun _ _ => none
    strtol := fun arg => if arg = "2" then 2 else 0
    home := none }

/-- Every wait reports that the awaited process exited with status 0. -/
def envExited : Env := constEnv 7 (fun pid => (pid, .exited 0))

/-- Every wait reports that the awaited process was stopped by signal 20. -/
def envStopped : Env := constEnv 7 (fun pid => (pid, .stopped 20))

/-- Every wait fails. -/
def envWaitFails : Env := constEnv 7 (fun _ => (-1, .other))

/-- Every wait answers 0: no status is available. -/
def envNoStatus : Env := constEnv 7 (fun _ => (0, .other))

/-- A shell with one registered background job of pid 7. -/
def shell1 : Shell :=
  { jobs := { jobs := [{ jid := 1, pid := 7, command := ["sleep", "9"], status := .BACKGROUND }],
              current := some 1 }
    tty := none
    trace := [] }

/-- Registers one job per entry (pid, command, initial status), in order. -/
def save_all (l : List (Int × List String × JobStatus)) (s : Shell) : Shell :=
  l.foldl (fun t x => (job_save x.1 x.2.1 x.2.2 t).2) s

/-! ## Lemmas on the registry -/

theorem le_foldr_max (l : List Nat) (x : Nat) (h : x ∈ l) : x ≤ l.foldr max 0 := by
  induction l with
  | nil => cases h
  | cons a t ih =>
    simp only [List.foldr_cons]
    rcases List.mem_cons.mp h with rfl | h
    · exact le_max_left _ _
    · exact le_trans (ih h) (le_max_right _ _)

theorem jid_lt_fresh (r : JobList) (j : Job) (h : j ∈ r.jobs) : j.jid < r.fresh_jid := by
  unfold JobList.fresh_jid
  exact Nat.lt_succ_of_le (le_foldr_max _ _ (List.mem_map_of_mem _ h))

theorem find_fresh_none (r : JobList) :
    r.jobs.find? (fun j => j.jid == r.fresh_jid) = none := by
  rw [List.find?_eq_none]
  intro j hj
  have := jid_lt_fresh r j hj
  simp only [beq_iff_eq]
  omega

theorem deref_save (r : JobList) (pid : Int) (command : List String) (st : JobStatus) :
    (r.save pid command st).2.deref (r.save pid command st).1
      = some { jid := r.fresh_jid, pid := pid, command := command, status := st } := by
  simp [JobList.save, JobList.deref, List.find?_append, find_fresh_none]

theorem filter_fresh (r : JobList) :
    r.jobs.filter (fun j => j.jid != r.fresh_jid) = r.jobs := by
  rw [List.filter_eq_self]
  intro j hj
  have := jid_lt_fresh r j hj
  simp only [bne_iff_ne, ne_eq]
  omega

theorem map_fresh (r : JobList) (st : JobStatus) :
    r.jobs.map (fun j => if j.jid = r.fresh_jid then { j with status := st } else j) = r.jobs := by
  conv_rhs => rw [← List.map_id r.jobs]
  apply List.map_congr_left
  intro j hj
  have := jid_lt_fresh r j hj
  have hne : j.jid ≠ r.fresh_jid := by omega
  simp [hne]

theorem emitted_append (s t : Shell) (l : List Event) (h : t.trace = s.trace ++ l) :
    emitted s t = l := by
  simp [emitted, h]


@[simp] theorem log_jobs (e : Event) (s : Shell) : (log e s).jobs = s.jobs := rfl
@[simp] theorem log_tty (e : Event) (s : Shell) : (log e s).tty = s.tty := rfl
@[simp] theorem log_trace (e : Event) (s : Shell) : (log e s).trace = s.trace ++ [e] := rfl
@[simp] theorem term_take_jobs (h : Nat) (s : Shell) : (term_take h s).jobs = s.jobs := rfl
@[simp] theorem term_take_tty (h : Nat) (s : Shell) : (term_take h s).tty = none := rfl
@[simp] theorem term_take_trace (h : Nat) (s : Shell) :
    (term_take h s).trace = s.trace ++ [.term_take h] := rfl
@[simp] theorem job_save_fst (pid : Int) (c : List String) (st : JobStatus) (s : Shell) :
    (job_save pid c st s).1 = s.jobs.fresh_jid := rfl
@[simp] theorem job_save_jobs (pid : Int) (c : List String) (st : JobStatus) (s : Shell) :
    (job_save pid c st s).2.jobs = (s.jobs.save pid c st).2 := rfl
@[simp] theorem job_save_tty (pid : Int) (c : List String) (st : JobStatus) (s : Shell) :
    (job_save pid c st s).2.tty = s.tty := rfl
@[simp] theorem job_save_trace (pid : Int) (c : List String) (st : JobStatus) (s : Shell) :
    (job_save pid c st s).2.trace = s.trace ++ [.job_save s.jobs.fresh_jid pid st] := rfl
@[simp] theorem save_jobs (r : JobList) (pid : Int) (c : List String) (st : JobStatus) :
    (r.save pid c st).2.jobs
      = r.jobs ++ [{ jid := r.fresh_jid, pid := pid, command := c, status := st }] := rfl
@[simp] theorem save_current (r : JobList) (pid : Int) (c : List String) (st : JobStatus) :
    (r.save pid c st).2.current = if designates st then some r.fresh_jid else r.current := rfl
@[simp] theorem deref_save_fresh (r : JobList) (pid : Int) (c : List String) (st : JobStatus) :
    (r.save pid c st).2.deref r.fresh_jid
      = some { jid := r.fresh_jid, pid := pid, command := c, status := st } :=
  deref_save r pid c st

theorem term_give_ret (h : Nat) (s : Shell) (j : Job) (hd : s.jobs.deref h = some j) :
    term_give h s = .ret () (log (.term_give h) { s with tty := some j.pid }) := by
  simp [term_give, hd]

theorem job_delete_ret (h : Nat) (s : Shell) (j : Job) (hd : s.jobs.deref h = some j) :
    job_delete h s = .ret () (log (.job_delete h) { s with jobs := s.jobs.delete h }) := by
  simp [job_delete, hd]

theorem job_set_status_ret (h : Nat) (st : JobStatus) (s : Shell) (j : Job)
    (hd : s.jobs.deref h = some j) :
    job_set_status h st s
      = .ret () (log (.job_set_status h st) { s with jobs := s.jobs.set_status h st }) := by
  simp [job_set_status, hd]

theorem job_print_ret (h : Nat) (s : Shell) (j : Job) (hd : s.jobs.deref h = some j) :
    job_print h s = .ret () (log (.job_print j) s) := by
  simp [job_print, hd]

@[simp] theorem bind_ret {α β : Type} (v : α) (s : Shell) (k : α → Shell → Outcome β) :
    (Outcome.ret v s).bind k = k v s := rfl
@[simp] theorem bind_exit {α β : Type} (c : Nat) (s : Shell) (k : α → Shell → Outcome β) :
    (Outcome.exit c s : Outcome α).bind k = .exit c s := rfl
@[simp] theorem bind_abort {α β : Type} (s : Shell) (k : α → Shell → Outcome β) :
    (Outcome.abort s : Outcome α).bind k = .abort s := rfl
@[simp] theorem bind_replaced {α β : Type} (s : Shell) (k : α → Shell → Outcome β) :
    (Outcome.replaced s : Outcome α).bind k = .replaced s := rfl

/-- The parent branch of a foreground launch, up to the blocking wait. -/
theorem run_job_fg_parent (env : Env) (s : Shell) (command : List String) (foreground : Int)
    (currentJob : Option Nat) (hfg : foreground ≠ 0) (hfork : 0 < env.fork s.trace) :
    shell_run_job env command foreground currentJob s =
      (term_give (launchHandle s currentJob)
        (match currentJob with
          | none => (job_save (env.fork s.trace) command .FOREGROUND
                      (log (.fork (env.fork s.trace)) s)).2
          | some _ => log (.fork (env.fork s.trace)) s)).bind fun _ s2 =>
      (shell_wait_fg env (env.fork s.trace) s2).bind fun waitStatus s3 =>
      if waitStatus = 0 then
        (job_delete (launchHandle s currentJob) (term_take (launchHandle s currentJob) s3)).bind
          fun _ s5 => .ret 0 s5
      else if waitStatus = 1 then
        (job_set_status (launchHandle s currentJob) .STOPPED
          (term_take (launchHandle s currentJob) s3)).bind fun _ s5 =>
        (job_print (launchHandle s currentJob) s5).bind fun _ s6 => .ret 1 s6
      else .ret (-1) (term_take (launchHandle s currentJob) s3) := by
  have h1 : ¬ env.fork s.trace < 0 := by omega
  have h2 : env.fork s.trace ≠ 0 := by omega
  cases currentJob <;> simp [shell_run_job, h1, h2, hfg, launchHandle]


theorem shell_wait_fg_terminated (env : Env) (pid : Int) (s : Shell) (hp : pid ≠ -1)
    (hw : (env.waitpid s.trace pid .WUNTRACED).1 = pid)
    (hst : WIFEXITED (env.waitpid s.trace pid .WUNTRACED).2 = true
      ∨ WIFSIGNALED (env.waitpid s.trace pid .WUNTRACED).2 = true) :
    shell_wait_fg env pid s = .ret 0 (log (.waitpid pid .WUNTRACED pid) s) := by
  have hb : (WIFEXITED (env.waitpid s.trace pid .WUNTRACED).2
      || WIFSIGNALED (env.waitpid s.trace pid .WUNTRACED).2) = true := by
    simpa using hst
  simp [shell_wait_fg, hw, hp, hb]

theorem shell_wait_fg_stopped (env : Env) (pid : Int) (s : Shell) (hp : pid ≠ -1)
    (hw : (env.waitpid s.trace pid .WUNTRACED).1 = pid)
    (hst : WIFSTOPPED (env.waitpid s.trace pid .WUNTRACED).2 = true) :
    shell_wait_fg env pid s = .ret 1 (log (.waitpid pid .WUNTRACED pid) s) := by
  have h1 : WIFEXITED (env.waitpid s.trace pid .WUNTRACED).2 = false := by
    cases h : (env.waitpid s.trace pid .WUNTRACED).2 <;> simp_all [WIFEXITED, WIFSTOPPED]
  have h2 : WIFSIGNALED (env.waitpid s.trace pid .WUNTRACED).2 = false := by
    cases h : (env.waitpid s.trace pid .WUNTRACED).2 <;> simp_all [WIFSIGNALED, WIFSTOPPED]
  simp [shell_wait_fg, hw, hp, h1, h2, hst]

theorem shell_wait_fg_failed (env : Env) (pid : Int) (s : Shell)
    (hw : (env.waitpid s.trace pid .WUNTRACED).1 = -1) :
    shell_wait_fg env pid s
      = .exit 1 (log (.perror "wait") (log (.waitpid pid .WUNTRACED (-1)) s)) := by
  simp [shell_wait_fg, hw]

theorem shell_wait_fg_other (env : Env) (pid : Int) (s : Shell)
    (hw : waitUnrecognised pid (env.waitpid s.trace pid .WUNTRACED)) :
    shell_wait_fg env pid s
      = .ret (-1) (log (.waitpid pid .WUNTRACED (env.waitpid s.trace pid .WUNTRACED).1) s) := by
  obtain ⟨h1, h2⟩ := hw
  by_cases hp : (env.waitpid s.trace pid .WUNTRACED).1 = pid
  · obtain ⟨a, b, c⟩ := h2 hp
    have hp1 : pid ≠ -1 := hp ▸ h1
    simp [shell_wait_fg, hp, hp1, a, b, c]
  · simp [shell_wait_fg, h1, hp]

theorem deref_set_status (r : JobList) (h : Nat) (st : JobStatus) :
    (r.set_status h st).deref h = (r.deref h).map (fun j => { j with status := st }) := by
  unfold JobList.set_status JobList.deref
  simp only
  induction r.jobs with
  | nil => simp
  | cons a l ih =>
    by_cases ha : a.jid = h
    · simp [List.find?_cons, ha]
    · simp [List.find?_cons, ha, ih]

/-- The blocking wait returns whenever `waitpid` does not fail, with one of
the three documented codes, having made exactly one `waitpid` call. -/
theorem shell_wait_fg_returns (env : Env) (pid : Int) (s : Shell)
    (hw : (env.waitpid s.trace pid .WUNTRACED).1 ≠ -1) :
    ∃ v, shell_wait_fg env pid s
        = .ret v (log (.waitpid pid .WUNTRACED (env.waitpid s.trace pid .WUNTRACED).1) s)
      ∧ (v = 0 ∨ v = 1 ∨ v = -1) := by
  unfold shell_wait_fg
  simp only [hw, if_false]
  split_ifs <;> simp

/-! ## Claims on `shell_run_job` -/

/-- C2: a foreground launch of a new job whose child is reported by `waitpid`
as exited or killed by a signal returns 0 (TERMINATED), and the registry holds
exactly the jobs it held before: the job saved for the child is deleted within
the same call. -/
theorem run_job_fg_terminated (env : Env) (s : Shell) (command : List String) (foreground : Int)
    (hfg : foreground ≠ 0) (hfork : 0 < env.fork s.trace)
    (hpid : (fgWait env s none).1 = env.fork s.trace)
    (hst : WIFEXITED (fgWait env s none).2 = true ∨ WIFSIGNALED (fgWait env s none).2 = true) :
    ∃ t, shell_run_job env command foreground none s = .ret 0 t
      ∧ t.jobs.jobs = s.jobs.jobs
      ∧ t.jobs.jobs.length = s.jobs.jobs.length
      ∧ emitted s t = [.fork (env.fork s.trace),
          .job_save s.jobs.fresh_jid (env.fork s.trace) .FOREGROUND,
          .term_give s.jobs.fresh_jid,
          .waitpid (env.fork s.trace) .WUNTRACED (env.fork s.trace),
          .term_take s.jobs.fresh_jid,
          .job_delete s.jobs.fresh_jid] := by
  have h3 : env.fork s.trace ≠ -1 := by omega
  rw [run_job_fg_parent env s command foreground none hfg hfork]
  simp only [launchHandle]
  rw [term_give_ret _ _ ⟨s.jobs.fresh_jid, env.fork s.trace, command, .FOREGROUND⟩ (by simp)]
  simp only [bind_ret]
  rw [shell_wait_fg_terminated env _ _ h3 (by simpa [fgWait, fgHistory] using hpid)
    (by simpa [fgWait, fgHistory] using hst)]
  simp only [bind_ret, if_true]
  rw [job_delete_ret _ _ ⟨s.jobs.fresh_jid, env.fork s.trace, command, .FOREGROUND⟩ (by simp)]
  simp only [bind_ret]
  refine ⟨_, rfl, ?_, ?_, ?_⟩
  · simp [JobList.delete, filter_fresh]
  · simp [JobList.delete, filter_fresh]
  · apply emitted_append; simp

theorem run_job_fg_terminated_witness :
    ∃ t, shell_run_job envExited ["true"] 1 none shell1 = .ret 0 t
      ∧ t.jobs.jobs = shell1.jobs.jobs
      ∧ t.jobs.jobs.length = shell1.jobs.jobs.length
      ∧ emitted shell1 t = [.fork (envExited.fork shell1.trace),
          .job_save shell1.jobs.fresh_jid (envExited.fork shell1.trace) .FOREGROUND,
          .term_give shell1.jobs.fresh_jid,
          .waitpid (envExited.fork shell1.trace) .WUNTRACED (envExited.fork shell1.trace),
          .term_take shell1.jobs.fresh_jid,
          .job_delete shell1.jobs.fresh_jid] :=
  run_job_fg_terminated envExited shell1 ["true"] 1 (by decide) (by decide) (by decide)
    (by decide)

/-- C3: a foreground launch of a new job whose child is reported by `waitpid`
as stopped returns 1 (STOPPED); the registry holds exactly one job more than
before, that job carries the child's pid and status `STOPPED`, it is the
current job, it is reported exactly once, and the terminal is back with the
shell. -/
theorem run_job_fg_stopped (env : Env) (s : Shell) (command : List String) (foreground : Int)
    (hfg : foreground ≠ 0) (hfork : 0 < env.fork s.trace)
    (hpid : (fgWait env s none).1 = env.fork s.trace)
    (hst : WIFSTOPPED (fgWait env s none).2 = true) :
    ∃ t, shell_run_job env command foreground none s = .ret 1 t
      ∧ t.jobs.jobs = s.jobs.jobs ++
          [⟨s.jobs.fresh_jid, env.fork s.trace, command, .STOPPED⟩]
      ∧ t.jobs.jobs.length = s.jobs.jobs.length + 1
      ∧ t.jobs.get_current = some ⟨s.jobs.fresh_jid, env.fork s.trace, command, .STOPPED⟩
      ∧ (emitted s t).filter Event.isPrint = [.job_print ⟨s.jobs.fresh_jid, env.fork s.trace, command, .STOPPED⟩]
      ∧ (emitted s t).filter Event.isWait
          = [.waitpid (env.fork s.trace) .WUNTRACED (env.fork s.trace)]
      ∧ t.tty = none := by
  have h3 : env.fork s.trace ≠ -1 := by omega
  rw [run_job_fg_parent env s command foreground none hfg hfork]
  simp only [launchHandle]
  rw [term_give_ret _ _ ⟨s.jobs.fresh_jid, env.fork s.trace, command, .FOREGROUND⟩ (by simp)]
  simp only [bind_ret]
  rw [shell_wait_fg_stopped env _ _ h3 (by simpa [fgWait, fgHistory] using hpid)
    (by simpa [fgWait, fgHistory] using hst)]
  simp only [bind_ret, one_ne_zero, if_false, if_true]
  rw [job_set_status_ret _ _ _ ⟨s.jobs.fresh_jid, env.fork s.trace, command, .FOREGROUND⟩
    (by simp)]
  simp only [bind_ret]
  rw [job_print_ret _ _ ⟨s.jobs.fresh_jid, env.fork s.trace, command, .STOPPED⟩
    (by simp [deref_set_status])]
  simp only [bind_ret]
  have hjobs : ((s.jobs.save (env.fork s.trace) command .FOREGROUND).2.set_status
      s.jobs.fresh_jid .STOPPED).jobs = s.jobs.jobs ++
        [⟨s.jobs.fresh_jid, env.fork s.trace, command, .STOPPED⟩] := by
    simp [JobList.set_status, JobList.save, map_fresh]
  refine ⟨_, rfl, ?_, ?_, ?_, ?_, ?_, ?_⟩
  · simpa using hjobs
  · simp [hjobs]
  · have hd := deref_set_status (s.jobs.save (env.fork s.trace) command .FOREGROUND).2
      s.jobs.fresh_jid .STOPPED
    simp only [deref_save_fresh, Option.map_some'] at hd
    show ((s.jobs.save (env.fork s.trace) command .FOREGROUND).2.set_status
      s.jobs.fresh_jid .STOPPED).get_current = _
    have hc : ((s.jobs.save (env.fork s.trace) command .FOREGROUND).2.set_status
        s.jobs.fresh_jid .STOPPED).current = some s.jobs.fresh_jid := by
      simp [JobList.set_status]
    unfold JobList.get_current
    rw [hc]
    exact hd
  · rw [emitted_append _ _ [.fork (env.fork s.trace),
      .job_save s.jobs.fresh_jid (env.fork s.trace) .FOREGROUND,
      .term_give s.jobs.fresh_jid,
      .waitpid (env.fork s.trace) .WUNTRACED (env.fork s.trace),
      .term_take s.jobs.fresh_jid,
      .job_set_status s.jobs.fresh_jid .STOPPED,
      .job_print ⟨s.jobs.fresh_jid, env.fork s.trace, command, .STOPPED⟩] (by simp)]
    simp [Event.isPrint]
  · rw [emitted_append _ _ [.fork (env.fork s.trace),
      .job_save s.jobs.fresh_jid (env.fork s.trace) .FOREGROUND,
      .term_give s.jobs.fresh_jid,
      .waitpid (env.fork s.trace) .WUNTRACED (env.fork s.trace),
      .term_take s.jobs.fresh_jid,
      .job_set_status s.jobs.fresh_jid .STOPPED,
      .job_print ⟨s.jobs.fresh_jid, env.fork s.trace, command, .STOPPED⟩] (by simp)]
    simp [Event.isWait]
  · simp

theorem run_job_fg_stopped_witness :
    ∃ t, shell_run_job envStopped ["vi"] 1 none shell1 = .ret 1 t
      ∧ t.jobs.jobs = shell1.jobs.jobs ++
          [⟨shell1.jobs.fresh_jid, envStopped.fork shell1.trace, ["vi"], .STOPPED⟩]
      ∧ t.jobs.jobs.length = shell1.jobs.jobs.length + 1
      ∧ t.jobs.get_current
          = some ⟨shell1.jobs.fresh_jid, envStopped.fork shell1.trace, ["vi"], .STOPPED⟩
      ∧ (emitted shell1 t).filter Event.isPrint
          = [.job_print ⟨shell1.jobs.fresh_jid, envStopped.fork shell1.trace, ["vi"], .STOPPED⟩]
      ∧ (emitted shell1 t).filter Event.isWait
          = [.waitpid (envStopped.fork shell1.trace) .WUNTRACED (envStopped.fork shell1.trace)]
      ∧ t.tty = none :=
  run_job_fg_stopped envStopped shell1 ["vi"] 1 (by decide) (by decide) (by decide) (by decide)

/-- C4: a background launch (foreground clear) in which fork succeeds makes no
wait call and no terminal handoff and returns 0. With no existing job it adds
exactly one new job with the child's pid and status `BACKGROUND` and reports it
exactly once; with an existing job it adds no job and leaves the registry
unchanged. -/
theorem run_job_bg (env : Env) (s : Shell) (command : List String)
    (hfork : 0 < env.fork s.trace) :
    (∃ t, shell_run_job env command 0 none s = .ret 0 t
      ∧ t.jobs.jobs = s.jobs.jobs ++
          [⟨s.jobs.fresh_jid, env.fork s.trace, command, .BACKGROUND⟩]
      ∧ emitted s t = [.fork (env.fork s.trace),
          .job_save s.jobs.fresh_jid (env.fork s.trace) .BACKGROUND,
          .job_print ⟨s.jobs.fresh_jid, env.fork s.trace, command, .BACKGROUND⟩]
      ∧ (emitted s t).filter Event.isPrint
          = [.job_print ⟨s.jobs.fresh_jid, env.fork s.trace, command, .BACKGROUND⟩]
      ∧ (emitted s t).filter Event.isWait = []
      ∧ (emitted s t).filter Event.isTerm = []
      ∧ t.tty = s.tty)
    ∧ (∀ h j, s.jobs.deref h = some j →
        ∃ t, shell_run_job env command 0 (some h) s = .ret 0 t
          ∧ t.jobs = s.jobs
          ∧ emitted s t = [.fork (env.fork s.trace), .job_print j]
          ∧ t.tty = s.tty) := by
  have h1 : ¬ env.fork s.trace < 0 := by omega
  have h2 : env.fork s.trace ≠ 0 := by omega
  constructor
  · simp only [shell_run_job, h1, h2, if_false, ne_eq, not_true_eq_false]
    rw [job_print_ret _ _ ⟨s.jobs.fresh_jid, env.fork s.trace, command, .BACKGROUND⟩ (by simp)]
    simp only [bind_ret]
    have he : emitted s (log (.job_print ⟨s.jobs.fresh_jid, env.fork s.trace, command,
        .BACKGROUND⟩) (job_save (env.fork s.trace) command .BACKGROUND
          (log (.fork (env.fork s.trace)) s)).2) = [.fork (env.fork s.trace),
          .job_save s.jobs.fresh_jid (env.fork s.trace) .BACKGROUND,
          .job_print ⟨s.jobs.fresh_jid, env.fork s.trace, command, .BACKGROUND⟩] := by
      apply emitted_append; simp
    refine ⟨_, rfl, by simp, he, ?_, ?_, ?_, by simp⟩
    · rw [he]; simp [Event.isPrint]
    · rw [he]; simp [Event.isWait]
    · rw [he]; simp [Event.isTerm]
  · intro h j hd
    simp only [shell_run_job, h1, h2, if_false, ne_eq, not_true_eq_false]
    rw [job_print_ret _ _ j (by simpa using hd)]
    simp only [bind_ret]
    refine ⟨_, rfl, by simp, ?_, by simp⟩
    apply emitted_append; simp

theorem run_job_bg_witness :
    (∃ t, shell_run_job envExited ["sleep", "1"] 0 none shell1 = .ret 0 t
      ∧ t.jobs.jobs = shell1.jobs.jobs ++
          [⟨shell1.jobs.fresh_jid, envExited.fork shell1.trace, ["sleep", "1"], .BACKGROUND⟩]
      ∧ emitted shell1 t = [.fork (envExited.fork shell1.trace),
          .job_save shell1.jobs.fresh_jid (envExited.fork shell1.trace) .BACKGROUND,
          .job_print ⟨shell1.jobs.fresh_jid, envExited.fork shell1.trace, ["sleep", "1"],
            .BACKGROUND⟩]
      ∧ (emitted shell1 t).filter Event.isPrint
          = [.job_print ⟨shell1.jobs.fresh_jid, envExited.fork shell1.trace, ["sleep", "1"],
            .BACKGROUND⟩]
      ∧ (emitted shell1 t).filter Event.isWait = []
      ∧ (emitted shell1 t).filter Event.isTerm = []
      ∧ t.tty = shell1.tty)
    ∧ (∃ t, shell_run_job envExited ["sleep", "1"] 0 (some 1) shell1 = .ret 0 t
          ∧ t.jobs = shell1.jobs
          ∧ emitted shell1 t = [.fork (envExited.fork shell1.trace),
              .job_print ⟨1, 7, ["sleep", "9"], .BACKGROUND⟩]
          ∧ t.tty = shell1.tty) :=
  ⟨(run_job_bg envExited shell1 ["sleep", "1"] (by decide)).1,
   (run_job_bg envExited shell1 ["sleep", "1"] (by decide)).2 1
      ⟨1, 7, ["sleep", "9"], .BACKGROUND⟩ (by decide)⟩

/-- The part of a foreground launch from the terminal handoff on, for a live
job `h`: either `waitpid` fails and the process exits without `term_take`, or
the call returns with exactly one `term_give` followed by one `term_take`. -/
theorem fg_tail (env : Env) (pid : Int) (h : Nat) (s1 : Shell) (j : Job)
    (hd : s1.jobs.deref h = some j) :
    ((env.waitpid (s1.trace ++ [.term_give h]) pid .WUNTRACED).1 ≠ -1 →
      ∃ v t l, ((term_give h s1).bind fun _ s2 =>
        (shell_wait_fg env pid s2).bind fun waitStatus s3 =>
        if waitStatus = 0 then
          (job_delete h (term_take h s3)).bind fun _ s5 => .ret 0 s5
        else if waitStatus = 1 then
          (job_set_status h .STOPPED (term_take h s3)).bind fun _ s5 =>
          (job_print h s5).bind fun _ s6 => .ret 1 s6
        else .ret (-1) (term_take h s3)) = Outcome.ret v t
        ∧ t.trace = s1.trace ++ l
        ∧ l.filter Event.isTerm = [.term_give h, .term_take h]
        ∧ t.tty = none)
    ∧ ((env.waitpid (s1.trace ++ [.term_give h]) pid .WUNTRACED).1 = -1 →
      ((term_give h s1).bind fun _ s2 =>
        (shell_wait_fg env pid s2).bind fun waitStatus s3 =>
        if waitStatus = 0 then
          (job_delete h (term_take h s3)).bind fun _ s5 => .ret 0 s5
        else if waitStatus = 1 then
          (job_set_status h .STOPPED (term_take h s3)).bind fun _ s5 =>
          (job_print h s5).bind fun _ s6 => .ret 1 s6
        else .ret (-1) (term_take h s3))
        = Outcome.exit 1 ⟨s1.jobs, some j.pid,
            s1.trace ++ [.term_give h, .waitpid pid .WUNTRACED (-1), .perror "wait"]⟩) := by
  rw [term_give_ret h s1 j hd]
  simp only [bind_ret]
  constructor
  · intro hw
    obtain ⟨v, hv, hc⟩ := shell_wait_fg_returns env pid
      (log (.term_give h) { s1 with tty := some j.pid }) (by simpa using hw)
    rw [hv]
    simp only [bind_ret]
    rcases hc with rfl | rfl | rfl
    · simp only [if_true]
      rw [job_delete_ret _ _ j (by simpa using hd)]
      simp only [bind_ret]
      exact ⟨_, _, _, rfl, by simp; rfl, by simp [Event.isTerm], by simp⟩
    · simp only [one_ne_zero, if_false, if_true]
      rw [job_set_status_ret _ _ _ j (by simpa using hd)]
      simp only [bind_ret]
      rw [job_print_ret _ _ { j with status := .STOPPED }
        (by simp [deref_set_status, hd])]
      simp only [bind_ret]
      exact ⟨_, _, _, rfl, by simp; rfl, by simp [Event.isTerm], by simp⟩
    · have h10 : ¬ ((-1 : Int) = 0) := by decide
      have h11 : ¬ ((-1 : Int) = 1) := by decide
      simp only [h10, h11, if_false]
      exact ⟨_, _, _, rfl, by simp; rfl, by simp [Event.isTerm], by simp⟩
  · intro hw
    rw [shell_wait_fg_failed env pid _ (by simpa using hw)]
    simp [log]

/-- C1 (as stated, refuted): in a world where the foreground `waitpid` fails,
a foreground launch leaves the process through `exit(1)` after `term_give`
without any `term_take`; the terminal stays with the child's group. -/
theorem run_job_fg_wait_failure_skips_take :
    ∃ t, shell_run_job envWaitFails ["sleep", "1"] 1 none shell0 = .exit 1 t
      ∧ (emitted shell0 t).filter Event.isTerm = [.term_give 1]
      ∧ (emitted shell0 t).count (.term_take 1) = 0
      ∧ t.tty = some 7 := by
  refine ⟨⟨⟨[⟨1, 7, ["sleep", "1"], .FOREGROUND⟩], none⟩, some 7,
    [.fork 7, .job_save 1 7 .FOREGROUND, .term_give 1, .waitpid 7 .WUNTRACED (-1),
      .perror "wait"]⟩, ?_, ?_, ?_, ?_⟩ <;> decide

/-- C1 (amended): in a foreground launch in which fork succeeds, whenever the
foreground `waitpid` does not fail the call returns to its caller, and on that
path `term_take` is called exactly once, after the one `term_give`, and the
terminal is back with the shell. When `waitpid` fails the process exits with
status 1 after the diagnostic, with `term_give` not followed by `term_take`. -/
theorem run_job_fg_take (env : Env) (s : Shell) (command : List String) (foreground : Int)
    (currentJob : Option Nat) (hfg : foreground ≠ 0) (hfork : 0 < env.fork s.trace)
    (hlive : ∀ h, currentJob = some h → (s.jobs.deref h).isSome = true) :
    ((fgWait env s currentJob).1 ≠ -1 →
      ∃ v t, shell_run_job env command foreground currentJob s = .ret v t
        ∧ (emitted s t).filter Event.isTerm
            = [.term_give (launchHandle s currentJob), .term_take (launchHandle s currentJob)]
        ∧ t.tty = none)
    ∧ ((fgWait env s currentJob).1 = -1 →
      ∃ t, shell_run_job env command foreground currentJob s = .exit 1 t
        ∧ (emitted s t).filter Event.isTerm = [.term_give (launchHandle s currentJob)]
        ∧ (emitted s t).filter Event.isMessage = [.perror "wait"]
        ∧ t.tty.isSome = true) := by
  rw [run_job_fg_parent env s command foreground currentJob hfg hfork]
  cases currentJob with
  | none =>
    simp only [launchHandle]
    obtain ⟨hA, hB⟩ := fg_tail env (env.fork s.trace) s.jobs.fresh_jid
      (job_save (env.fork s.trace) command .FOREGROUND (log (.fork (env.fork s.trace)) s)).2
      ⟨s.jobs.fresh_jid, env.fork s.trace, command, .FOREGROUND⟩ (by simp)
    constructor
    · intro hw
      obtain ⟨v, t, l, ht, htr, hl, htty⟩ := hA (by simpa [fgWait, fgHistory] using hw)
      refine ⟨v, t, ht, ?_, htty⟩
      rw [emitted_append s t ([.fork (env.fork s.trace),
        .job_save s.jobs.fresh_jid (env.fork s.trace) .FOREGROUND] ++ l) (by simp [htr])]
      simp [List.filter_append, hl, Event.isTerm]
    · intro hw
      refine ⟨_, hB (by simpa [fgWait, fgHistory] using hw), ?_, ?_, by simp⟩
      · rw [emitted_append _ _ [.fork (env.fork s.trace),
          .job_save s.jobs.fresh_jid (env.fork s.trace) .FOREGROUND,
          .term_give s.jobs.fresh_jid, .waitpid (env.fork s.trace) .WUNTRACED (-1),
          .perror "wait"] (by simp)]
        simp [Event.isTerm]
      · rw [emitted_append _ _ [.fork (env.fork s.trace),
          .job_save s.jobs.fresh_jid (env.fork s.trace) .FOREGROUND,
          .term_give s.jobs.fresh_jid, .waitpid (env.fork s.trace) .WUNTRACED (-1),
          .perror "wait"] (by simp)]
        simp [Event.isMessage]
  | some h =>
    simp only [launchHandle]
    obtain ⟨j, hj⟩ := Option.isSome_iff_exists.mp (hlive h rfl)
    obtain ⟨hA, hB⟩ := fg_tail env (env.fork s.trace) h (log (.fork (env.fork s.trace)) s) j
      (by simpa using hj)
    constructor
    · intro hw
      obtain ⟨v, t, l, ht, htr, hl, htty⟩ := hA (by simpa [fgWait, fgHistory] using hw)
      refine ⟨v, t, ht, ?_, htty⟩
      rw [emitted_append s t ([.fork (env.fork s.trace)] ++ l) (by simp [htr])]
      simp [List.filter_append, hl, Event.isTerm]
    · intro hw
      refine ⟨_, hB (by simpa [fgWait, fgHistory] using hw), ?_, ?_, by simp⟩
      · rw [emitted_append _ _ [.fork (env.fork s.trace),
          .term_give h, .waitpid (env.fork s.trace) .WUNTRACED (-1),
          .perror "wait"] (by simp)]
        simp [Event.isTerm]
      · rw [emitted_append _ _ [.fork (env.fork s.trace),
          .term_give h, .waitpid (env.fork s.trace) .WUNTRACED (-1),
          .perror "wait"] (by simp)]
        simp [Event.isMessage]

theorem run_job_fg_take_witness :
    (∃ v t, shell_run_job envStopped ["sleep", "9"] 1 (some 1) shell1 = .ret v t
        ∧ (emitted shell1 t).filter Event.isTerm
            = [.term_give (launchHandle shell1 (some 1)),
               .term_take (launchHandle shell1 (some 1))]
        ∧ t.tty = none)
    ∧ (∃ t, shell_run_job envWaitFails ["sleep", "9"] 1 (some 1) shell1 = .exit 1 t
        ∧ (emitted shell1 t).filter Event.isTerm = [.term_give (launchHandle shell1 (some 1))]
        ∧ (emitted shell1 t).filter Event.isMessage = [.perror "wait"]
        ∧ t.tty.isSome = true) :=
  ⟨(run_job_fg_take envStopped shell1 ["sleep", "9"] 1 (some 1) (by decide) (by decide)
      (by intro h hh; cases hh; decide)).1 (by decide),
   (run_job_fg_take envWaitFails shell1 ["sleep", "9"] 1 (some 1) (by decide) (by decide)
      (by intro h hh; cases hh; decide)).2 (by decide)⟩

/-- C10 (as stated, refuted): when the foreground `waitpid` answers 0 (neither
a failure nor the child's pid), the call returns -1 having emitted no message
at all, and the job it saved stays registered in status `FOREGROUND`. -/
theorem run_job_fg_unrecognised_is_silent :
    waitUnrecognised 7 (fgWait envNoStatus shell0 none)
      ∧ ∃ t, shell_run_job envNoStatus ["sleep", "1"] 1 none shell0 = .ret (-1) t
        ∧ (emitted shell0 t).filter Event.isMessage = []
        ∧ t.jobs.jobs = [⟨1, 7, ["sleep", "1"], .FOREGROUND⟩] := by
  refine ⟨by decide, ⟨⟨[⟨1, 7, ["sleep", "1"], .FOREGROUND⟩], none⟩, none,
    [.fork 7, .job_save 1 7 .FOREGROUND, .term_give 1, .waitpid 7 .WUNTRACED 0,
      .term_take 1]⟩, ?_, ?_, ?_⟩ <;> decide

/-- C10 (amended): in a foreground launch in which fork succeeds and the wait
outcome is neither termination nor suspension, the call returns -1 after
`term_take`; it emits no message and reports no job, changes no status and
deletes nothing, so the job stays registered: a job saved by this call stays in
status `FOREGROUND`, a supplied job stays as it was. -/
theorem run_job_fg_unrecognised (env : Env) (s : Shell) (command : List String)
    (foreground : Int) (currentJob : Option Nat) (hfg : foreground ≠ 0)
    (hfork : 0 < env.fork s.trace)
    (hlive : ∀ h, currentJob = some h → (s.jobs.deref h).isSome = true)
    (hw : waitUnrecognised (env.fork s.trace) (fgWait env s currentJob)) :
    ∃ t, shell_run_job env command foreground currentJob s = .ret (-1) t
      ∧ (emitted s t).filter Event.isMessage = []
      ∧ (emitted s t).filter Event.isPrint = []
      ∧ (emitted s t).filter Event.isTerm
          = [.term_give (launchHandle s currentJob), .term_take (launchHandle s currentJob)]
      ∧ t.jobs = (match currentJob with
          | none => (s.jobs.save (env.fork s.trace) command .FOREGROUND).2
          | some _ => s.jobs)
      ∧ (t.jobs.deref (launchHandle s currentJob)).isSome = true := by
  rw [run_job_fg_parent env s command foreground currentJob hfg hfork]
  have h10 : ¬ ((-1 : Int) = 0) := by decide
  have h11 : ¬ ((-1 : Int) = 1) := by decide
  cases currentJob with
  | none =>
    simp only [launchHandle]
    rw [term_give_ret _ _ ⟨s.jobs.fresh_jid, env.fork s.trace, command, .FOREGROUND⟩ (by simp)]
    simp only [bind_ret]
    rw [shell_wait_fg_other env _ _ (by simpa [fgWait, fgHistory] using hw)]
    simp only [bind_ret, h10, h11, if_false]
    have key : ∀ t : Shell, t.trace = s.trace ++ [.fork (env.fork s.trace),
        .job_save s.jobs.fresh_jid (env.fork s.trace) .FOREGROUND,
        .term_give s.jobs.fresh_jid,
        .waitpid (env.fork s.trace) .WUNTRACED (fgWait env s none).1,
        .term_take s.jobs.fresh_jid] →
        (emitted s t).filter Event.isMessage = [] ∧ (emitted s t).filter Event.isPrint = []
          ∧ (emitted s t).filter Event.isTerm
            = [.term_give s.jobs.fresh_jid, .term_take s.jobs.fresh_jid] := by
      intro t ht
      rw [emitted_append s t _ ht]
      simp [Event.isMessage, Event.isPrint, Event.isTerm]
    refine ⟨_, rfl, (key _ ?_).1, (key _ ?_).2.1, (key _ ?_).2.2, ?_, ?_⟩
    · simp [fgWait, fgHistory]
    · simp [fgWait, fgHistory]
    · simp [fgWait, fgHistory]
    · simp
    · simp
  | some h =>
    simp only [launchHandle]
    obtain ⟨j, hj⟩ := Option.isSome_iff_exists.mp (hlive h rfl)
    rw [term_give_ret _ _ j (by simpa using hj)]
    simp only [bind_ret]
    rw [shell_wait_fg_other env _ _ (by simpa [fgWait, fgHistory] using hw)]
    simp only [bind_ret, h10, h11, if_false]
    have key : ∀ t : Shell, t.trace = s.trace ++ [.fork (env.fork s.trace),
        .term_give h,
        .waitpid (env.fork s.trace) .WUNTRACED (fgWait env s (some h)).1,
        .term_take h] →
        (emitted s t).filter Event.isMessage = [] ∧ (emitted s t).filter Event.isPrint = []
          ∧ (emitted s t).filter Event.isTerm = [.term_give h, .term_take h] := by
      intro t ht
      rw [emitted_append s t _ ht]
      simp [Event.isMessage, Event.isPrint, Event.isTerm]
    refine ⟨_, rfl, (key _ ?_).1, (key _ ?_).2.1, (key _ ?_).2.2, ?_, ?_⟩
    · simp [fgWait, fgHistory]
    · simp [fgWait, fgHistory]
    · simp [fgWait, fgHistory]
    · simp
    · simp [hj]

theorem run_job_fg_unrecognised_witness :
    ∃ t, shell_run_job envNoStatus ["sleep", "9"] 1 (some 1) shell1 = .ret (-1) t
      ∧ (emitted shell1 t).filter Event.isMessage = []
      ∧ (emitted shell1 t).filter Event.isPrint = []
      ∧ (emitted shell1 t).filter Event.isTerm
          = [.term_give (launchHandle shell1 (some 1)), .term_take (launchHandle shell1 (some 1))]
      ∧ t.jobs = shell1.jobs
      ∧ (t.jobs.deref (launchHandle shell1 (some 1))).isSome = true :=
  run_job_fg_unrecognised envNoStatus shell1 ["sleep", "9"] 1 (some 1) (by decide) (by decide)
    (by intro h hh; cases hh; decide) (by decide)

/-! ## Claims on `reapChild` -/

theorem deref_delete_self (r : JobList) (h : Nat) : (r.delete h).deref h = none := by
  unfold JobList.delete JobList.deref
  rw [List.find?_eq_none]
  intro j hj
  have := (List.mem_filter.mp hj).2
  simpa using this

theorem delete_set_status_jobs (r : JobList) (h : Nat) (st : JobStatus) :
    ((r.set_status h st).delete h).jobs = r.jobs.filter (fun k => k.jid != h) := by
  unfold JobList.delete JobList.set_status
  simp only
  induction r.jobs with
  | nil => simp
  | cons a l ih =>
    by_cases ha : a.jid = h
    · simp [List.filter_cons, ha, ih]
    · simp [List.filter_cons, ha, ih]

/-- C5: `reapChild` on a live job with positive pid, in report mode 0, 1 or 2.
When the non-blocking `waitpid` returns the job's pid, the job's status is set
to `DONE` and the job is deleted in the same call, and it is printed exactly
once in modes 1 and 2 and not at all in mode 0. Otherwise the registry is left
unchanged and the job is printed exactly once in mode 2 and not at all in modes
0 and 1. -/
theorem reapChild_modes (env : Env) (s : Shell) (h : Nat) (j : Job) (choice : Int)
    (hd : s.jobs.deref h = some j) (hpid : 0 < j.pid)
    (hmode : choice = 0 ∨ choice = 1 ∨ choice = 2) :
    ((env.waitpid s.trace j.pid .WNOHANG).1 = j.pid →
      ∃ t, reapChild env h choice s = .ret () t
        ∧ emitted s t = [.waitpid j.pid .WNOHANG j.pid, .job_set_status h .DONE]
            ++ (if choice = 0 then [] else [.job_print { j with status := .DONE }])
            ++ [.job_delete h]
        ∧ ((emitted s t).filter Event.isPrint).length = (if choice = 0 then 0 else 1)
        ∧ t.jobs.jobs = s.jobs.jobs.filter (fun k => k.jid != h)
        ∧ t.jobs.deref h = none)
    ∧ ((env.waitpid s.trace j.pid .WNOHANG).1 ≠ j.pid →
      ∃ t, reapChild env h choice s = .ret () t
        ∧ emitted s t = [.waitpid j.pid .WNOHANG (env.waitpid s.trace j.pid .WNOHANG).1]
            ++ (if choice = 2 then [.job_print j] else [])
        ∧ ((emitted s t).filter Event.isPrint).length = (if choice = 2 then 1 else 0)
        ∧ t.jobs = s.jobs) := by
  have hp : ¬ ¬ (j.pid > 0) := by simpa using hpid
  constructor
  · intro hw
    have hw2 : j.pid = (env.waitpid s.trace j.pid .WNOHANG).1 := hw.symm
    unfold reapChild
    simp only [hd, hp, if_false]
    rw [if_pos hw2, hw]
    rw [job_set_status_ret _ _ _ j (by simpa using hd)]
    simp only [bind_ret]
    rcases hmode with rfl | rfl | rfl
    · simp only [lt_self_iff_false, if_false, bind_ret, if_true]
      rw [job_delete_ret _ _ { j with status := .DONE } (by simp [deref_set_status, hd])]
      refine ⟨_, rfl, ?_, ?_, ?_, ?_⟩
      · apply emitted_append; simp
      · rw [emitted_append _ _ [.waitpid j.pid .WNOHANG j.pid, .job_set_status h .DONE,
          .job_delete h] (by simp)]
        simp [Event.isPrint]
      · simpa using delete_set_status_jobs s.jobs h .DONE
      · simpa using deref_delete_self (s.jobs.set_status h .DONE) h
    · simp only [zero_lt_one, if_true, one_ne_zero, if_false]
      rw [job_print_ret _ _ { j with status := .DONE } (by simp [deref_set_status, hd])]
      simp only [bind_ret]
      rw [job_delete_ret _ _ { j with status := .DONE } (by simp [deref_set_status, hd])]
      refine ⟨_, rfl, ?_, ?_, ?_, ?_⟩
      · apply emitted_append; simp
      · rw [emitted_append _ _ [.waitpid j.pid .WNOHANG j.pid, .job_set_status h .DONE,
          .job_print { j with status := .DONE }, .job_delete h] (by simp)]
        simp [Event.isPrint]
      · simpa using delete_set_status_jobs s.jobs h .DONE
      · simpa using deref_delete_self (s.jobs.set_status h .DONE) h
    · have h20 : (0 : Int) < 2 := by decide
      have h2n : ¬ ((2 : Int) = 0) := by decide
      simp only [h20, h2n, if_true, if_false]
      rw [job_print_ret _ _ { j with status := .DONE } (by simp [deref_set_status, hd])]
      simp only [bind_ret]
      rw [job_delete_ret _ _ { j with status := .DONE } (by simp [deref_set_status, hd])]
      refine ⟨_, rfl, ?_, ?_, ?_, ?_⟩
      · apply emitted_append; simp
      · rw [emitted_append _ _ [.waitpid j.pid .WNOHANG j.pid, .job_set_status h .DONE,
          .job_print { j with status := .DONE }, .job_delete h] (by simp)]
        simp [Event.isPrint]
      · simpa using delete_set_status_jobs s.jobs h .DONE
      · simpa using deref_delete_self (s.jobs.set_status h .DONE) h
  · intro hw
    have hw2 : ¬ (j.pid = (env.waitpid s.trace j.pid .WNOHANG).1) := fun e => hw e.symm
    unfold reapChild
    simp only [hd, hp, if_false]
    rw [if_neg hw2]
    rcases hmode with rfl | rfl | rfl
    · have h02 : ¬ ((0 : Int) = 2) := by decide
      simp only [h02, if_false]
      refine ⟨_, rfl, ?_, ?_, by simp⟩
      · apply emitted_append; simp
      · rw [emitted_append _ _ [.waitpid j.pid .WNOHANG
          (env.waitpid s.trace j.pid .WNOHANG).1] (by simp)]
        simp [Event.isPrint]
    · have h12 : ¬ ((1 : Int) = 2) := by decide
      simp only [h12, if_false]
      refine ⟨_, rfl, ?_, ?_, by simp⟩
      · apply emitted_append; simp
      · rw [emitted_append _ _ [.waitpid j.pid .WNOHANG
          (env.waitpid s.trace j.pid .WNOHANG).1] (by simp)]
        simp [Event.isPrint]
    · simp only [if_true]
      rw [job_print_ret _ _ j (by simpa using hd)]
      refine ⟨_, rfl, ?_, ?_, by simp⟩
      · apply emitted_append; simp
      · rw [emitted_append _ _ [.waitpid j.pid .WNOHANG
          (env.waitpid s.trace j.pid .WNOHANG).1, .job_print j] (by simp)]
        simp [Event.isPrint]

theorem reapChild_modes_witness :
    (∃ t, reapChild envExited 1 1 shell1 = .ret () t
        ∧ emitted shell1 t = [.waitpid 7 .WNOHANG 7, .job_set_status 1 .DONE]
            ++ (if (1 : Int) = 0 then []
                else [.job_print ⟨1, 7, ["sleep", "9"], .DONE⟩])
            ++ [.job_delete 1]
        ∧ ((emitted shell1 t).filter Event.isPrint).length = (if (1 : Int) = 0 then 0 else 1)
        ∧ t.jobs.jobs = shell1.jobs.jobs.filter (fun k => k.jid != 1)
        ∧ t.jobs.deref 1 = none)
    ∧ (∃ t, reapChild envNoStatus 1 2 shell1 = .ret () t
        ∧ emitted shell1 t = [.waitpid 7 .WNOHANG 0]
            ++ (if (2 : Int) = 2 then [.job_print ⟨1, 7, ["sleep", "9"], .BACKGROUND⟩] else [])
        ∧ ((emitted shell1 t).filter Event.isPrint).length = (if (2 : Int) = 2 then 1 else 0)
        ∧ t.jobs = shell1.jobs) :=
  ⟨(reapChild_modes envExited shell1 1 ⟨1, 7, ["sleep", "9"], .BACKGROUND⟩ 1 (by decide)
      (by decide) (by decide)).1 (by decide),
   (reapChild_modes envNoStatus shell1 1 ⟨1, 7, ["sleep", "9"], .BACKGROUND⟩ 2 (by decide)
      (by decide) (by decide)).2 (by decide)⟩

/-- C9 (the code at the failing input): when the non-blocking `waitpid` of
`reapChild` fails (returns -1), the call returns normally: no diagnostic is
written, the process does not exit, and the job stays in the registry. The
blocking wait of `shell_wait_fg` in the same world exits with status 1 after
`perror`. -/
theorem reapChild_wait_failure_continues :
    reapChild envWaitFails 1 1 shell1
        = .ret () ⟨shell1.jobs, none, [.waitpid 7 .WNOHANG (-1)]⟩
      ∧ shell_wait_fg envWaitFails 7 shell1
        = .exit 1 ⟨shell1.jobs, none, [.waitpid 7 .WUNTRACED (-1), .perror "wait"]⟩ := by
  constructor <;> decide

/-! ## Claims on `shell_builtin` -/

theorem get_current_jid (r : JobList) (j : Job) (h : r.get_current = some j) :
    r.deref j.jid = some j := by
  unfold JobList.get_current at h
  cases hc : r.current with
  | none => simp [hc] at h
  | some c =>
    simp only [hc, Option.some_bind] at h
    have hj : j.jid = c := by
      have := List.find?_some h
      simpa using this
    rw [hj]; exact h

/-- C7: for `fg` and `bg`, with no id argument the job acted on is exactly the
registry's current job (its status is set to the requested mode and the launch
is re-run on it); with no id and no current job, or with an id for which the
registry has no job, the builtin prints the user message, forks nothing,
changes no status, leaves the registry unchanged and returns 1. -/
theorem builtin_fg_bg (env : Env) (s : Shell) (word : String)
    (hw : word = "fg" ∨ word = "bg") :
    (∀ j, s.jobs.get_current = some j →
      shell_builtin env [word] s =
        ((job_set_status j.jid (if word = "fg" then .FOREGROUND else .BACKGROUND) s).bind
          fun _ s1 => shell_run_job env j.command (if word = "fg" then 1 else 0)
            (some j.jid) s1).bind fun _ s2 => .ret 1 s2)
    ∧ (s.jobs.get_current = none →
      ∃ t, shell_builtin env [word] s = .ret 1 t
        ∧ emitted s t = [.printf noJobText] ∧ t.jobs = s.jobs ∧ t.tty = s.tty)
    ∧ (∀ arg rest, s.jobs.get (env.strtol arg) = none →
      ∃ t, shell_builtin env (word :: arg :: rest) s = .ret 1 t
        ∧ emitted s t = [.printf noJobText] ∧ t.jobs = s.jobs ∧ t.tty = s.tty) := by
  refine ⟨?_, ?_, ?_⟩
  · intro j hj
    have hd := get_current_jid s.jobs j hj
    rcases hw with rfl | rfl
    · simp only [shell_builtin, hj]
      simp [job_set_status, hd, deref_set_status]
    · simp only [shell_builtin, hj]
      simp [job_set_status, hd, deref_set_status]
  · intro hn
    refine ⟨log (.printf noJobText) s, ?_, by apply emitted_append; simp, by simp, by simp⟩
    rcases hw with rfl | rfl <;> simp [shell_builtin, hn]
  · intro arg rest hn
    refine ⟨log (.printf noJobText) s, ?_, by apply emitted_append; simp, by simp, by simp⟩
    rcases hw with rfl | rfl <;> simp [shell_builtin, hn]

theorem builtin_fg_bg_witness :
    (shell_builtin envStopped ["fg"] shell1 =
        ((job_set_status 1 (if "fg" = "fg" then .FOREGROUND else .BACKGROUND) shell1).bind
          fun _ s1 => shell_run_job envStopped ["sleep", "9"] (if "fg" = "fg" then 1 else 0)
            (some 1) s1).bind fun _ s2 => .ret 1 s2)
    ∧ (∃ t, shell_builtin envStopped ["bg"] shell0 = .ret 1 t
        ∧ emitted shell0 t = [.printf noJobText] ∧ t.jobs = shell0.jobs ∧ t.tty = shell0.tty)
    ∧ (∃ t, shell_builtin envStopped ["fg", "2"] shell1 = .ret 1 t
        ∧ emitted shell1 t = [.printf noJobText] ∧ t.jobs = shell1.jobs ∧ t.tty = shell1.tty) :=
  ⟨(builtin_fg_bg envStopped shell1 "fg" (Or.inl rfl)).1 ⟨1, 7, ["sleep", "9"], .BACKGROUND⟩
      (by decide),
   (builtin_fg_bg envStopped shell0 "bg" (Or.inr rfl)).2.1 (by decide),
   (builtin_fg_bg envStopped shell1 "fg" (Or.inl rfl)).2.2 "2" [] (by decide)⟩

/-! ## Traversals of the registry -/

theorem find_of_mem (l : List Job) (hn : (l.map Job.jid).Nodup) (j : Job) (hj : j ∈ l) :
    l.find? (fun k => k.jid == j.jid) = some j := by
  induction l with
  | nil => cases hj
  | cons a l ih =>
    simp only [List.map_cons, List.nodup_cons] at hn
    rcases List.mem_cons.mp hj with rfl | hl
    · simp [List.find?_cons]
    · have hne : a.jid ≠ j.jid := by
        intro e
        exact hn.1 (e ▸ List.mem_map_of_mem Job.jid hl)
      have hb : (a.jid == j.jid) = false := by simpa using hne
      simp only [List.find?_cons, hb]
      exact ih hn.2 hl

theorem deref_of_mem (r : JobList) (hn : (r.jobs.map Job.jid).Nodup) (j : Job)
    (hj : j ∈ r.jobs) : r.deref j.jid = some j :=
  find_of_mem r.jobs hn j hj

theorem deref_mem (r : JobList) (h : Nat) (j : Job) (hd : r.deref h = some j) :
    j ∈ r.jobs ∧ j.jid = h := by
  unfold JobList.deref at hd
  exact ⟨List.mem_of_find?_eq_some hd, by simpa using List.find?_some hd⟩

theorem find_filter_ne (l : List Job) (h k : Nat) (hk : k ≠ h) :
    (l.filter (fun j => j.jid != h)).find? (fun j => j.jid == k)
      = l.find? (fun j => j.jid == k) := by
  induction l with
  | nil => rfl
  | cons a l ih =>
    by_cases ha : a.jid = h
    · have hak : (a.jid == k) = false := by
        have : a.jid ≠ k := by omega
        simpa using this
      have hf : (a.jid != h) = false := by simpa using ha
      rw [List.filter_cons, hf, List.find?_cons, hak]
      simpa using ih
    · have hf : (a.jid != h) = true := by simpa using ha
      simp only [List.filter_cons, hf, if_true, List.find?_cons, ih]

/-- One visit of `reapChild` to a live job with positive pid: the call
returns, writes no message, and either deletes that job (the poll returned its
pid) or leaves the registry as it is. -/
theorem reapChild_step (env : Env) (s : Shell) (h : Nat) (j : Job) (choice : Int)
    (hd : s.jobs.deref h = some j) (hpid : 0 < j.pid) :
    ∃ t l, reapChild env h choice s = .ret () t ∧ t.trace = s.trace ++ l ∧ t.tty = s.tty
      ∧ l.filter Event.isMessage = []
      ∧ (((env.waitpid s.trace j.pid .WNOHANG).1 = j.pid
            ∧ t.jobs.jobs = s.jobs.jobs.filter (fun k => k.jid != h)
            ∧ l.filter Event.isPrint
                = if choice > 0 then [.job_print { j with status := .DONE }] else [])
          ∨ ((env.waitpid s.trace j.pid .WNOHANG).1 ≠ j.pid
            ∧ t.jobs = s.jobs
            ∧ l.filter Event.isPrint = if choice = 2 then [.job_print j] else [])) := by
  have hp : ¬ ¬ (j.pid > 0) := by simpa using hpid
  unfold reapChild
  simp only [hd, hp, if_false]
  by_cases hw : j.pid = (env.waitpid s.trace j.pid .WNOHANG).1
  · rw [if_pos hw, ← hw]
    rw [job_set_status_ret _ _ _ j (by simpa using hd)]
    simp only [bind_ret]
    by_cases hc : choice > 0
    · simp only [hc, if_true]
      rw [job_print_ret _ _ { j with status := .DONE } (by simp [deref_set_status, hd])]
      simp only [bind_ret]
      rw [job_delete_ret _ _ { j with status := .DONE } (by simp [deref_set_status, hd])]
      refine ⟨_, [.waitpid j.pid .WNOHANG j.pid, .job_set_status h .DONE,
        .job_print { j with status := .DONE }, .job_delete h], rfl, by simp, by simp,
        by simp [Event.isMessage], Or.inl ⟨trivial, ?_, by simp [Event.isPrint]⟩⟩
      simpa using delete_set_status_jobs s.jobs h .DONE
    · simp only [hc, if_false, bind_ret]
      rw [job_delete_ret _ _ { j with status := .DONE } (by simp [deref_set_status, hd])]
      refine ⟨_, [.waitpid j.pid .WNOHANG j.pid, .job_set_status h .DONE, .job_delete h],
        rfl, by simp, by simp, by simp [Event.isMessage],
        Or.inl ⟨trivial, ?_, by simp [Event.isPrint]⟩⟩
      simpa using delete_set_status_jobs s.jobs h .DONE
  · rw [if_neg hw]
    by_cases hc : choice = 2
    · simp only [hc, if_true]
      rw [job_print_ret _ _ j (by simpa using hd)]
      exact ⟨_, [.waitpid j.pid .WNOHANG (env.waitpid s.trace j.pid .WNOHANG).1,
        .job_print j], rfl, by simp, by simp, by simp [Event.isMessage],
        Or.inr ⟨fun e => hw e.symm, by simp, by simp [Event.isPrint]⟩⟩
    · simp only [hc, if_false]
      exact ⟨_, [.waitpid j.pid .WNOHANG (env.waitpid s.trace j.pid .WNOHANG).1],
        rfl, by simp, by simp, by simp [Event.isMessage],
        Or.inr ⟨fun e => hw e.symm, by simp, by simp [Event.isPrint]⟩⟩

theorem deref_after_step (s t : Shell) (h k : Nat) (hk : k ≠ h)
    (hjobs : t.jobs.jobs = s.jobs.jobs.filter (fun j => j.jid != h) ∨ t.jobs = s.jobs) :
    t.jobs.deref k = s.jobs.deref k := by
  rcases hjobs with hj | hj
  · unfold JobList.deref
    rw [hj]
    exact find_filter_ne _ h k hk
  · rw [hj]

/-- A reaping pass over distinct live handles with positive pids returns. It
writes no message, leaves every job it keeps unchanged and in order, and does
not touch jobs it does not visit. When every visited job is reported
terminated, exactly the visited jobs are removed and, in mode 1, each is
reported once, in order, in status `DONE`. -/
theorem visit_reap (env : Env) (choice : Int) :
    ∀ (hs : List Nat) (s : Shell), hs.Nodup →
      (∀ h ∈ hs, ∃ j, s.jobs.deref h = some j ∧ 0 < j.pid) →
      ∃ t l, visit (fun h u => reapChild env h choice u) hs s = .ret () t
        ∧ t.trace = s.trace ++ l ∧ t.tty = s.tty
        ∧ l.filter Event.isMessage = []
        ∧ (choice = 0 → l.filter Event.isPrint = [])
        ∧ t.jobs.jobs.Sublist s.jobs.jobs
        ∧ (∀ k, k ∉ hs → t.jobs.deref k = s.jobs.deref k)
        ∧ ((∀ h ∈ hs, ∀ j, s.jobs.deref h = some j →
              ∀ hist, (env.waitpid hist j.pid .WNOHANG).1 = j.pid) →
            t.jobs.jobs = s.jobs.jobs.filter (fun j => decide (j.jid ∉ hs))
            ∧ (choice = 1 → l.filter Event.isPrint = hs.filterMap (fun h =>
                (s.jobs.deref h).map (fun j => Event.job_print { j with status := .DONE })))) := by
  intro hs
  induction hs with
  | nil =>
    intro s _ _
    exact ⟨s, [], rfl, by simp, rfl, rfl, fun _ => rfl, List.Sublist.refl _, fun _ _ => rfl,
      fun _ => ⟨by simp, fun _ => rfl⟩⟩
  | cons h hs ih =>
    intro s hnd hlive
    obtain ⟨hnotin, hnd'⟩ := List.nodup_cons.mp hnd
    obtain ⟨j, hd, hpid⟩ := hlive h (List.mem_cons_self _ _)
    obtain ⟨t1, l1, hr1, htr1, htty1, hmsg1, hcase⟩ := reapChild_step env s h j choice hd hpid
    have hjobs1 : t1.jobs.jobs = s.jobs.jobs.filter (fun j => j.jid != h) ∨ t1.jobs = s.jobs := by
      rcases hcase with ⟨_, hj, _⟩ | ⟨_, hj, _⟩
      · exact Or.inl hj
      · exact Or.inr hj
    have hderef1 : ∀ k, k ≠ h → t1.jobs.deref k = s.jobs.deref k :=
      fun k hk => deref_after_step s t1 h k hk hjobs1
    have hne : ∀ k ∈ hs, k ≠ h := fun k hk e => hnotin (e ▸ hk)
    have hlive1 : ∀ k ∈ hs, ∃ j, t1.jobs.deref k = some j ∧ 0 < j.pid := by
      intro k hk
      rw [hderef1 k (hne k hk)]
      exact hlive k (List.mem_cons_of_mem _ hk)
    obtain ⟨t, l2, hr, htr, htty, hmsg2, hpr0, hsub, hunv, hfin⟩ := ih t1 hnd' hlive1
    have hsub1 : t1.jobs.jobs.Sublist s.jobs.jobs := by
      rcases hjobs1 with hj | hj
      · rw [hj]; exact List.filter_sublist _
      · rw [hj]
    refine ⟨t, l1 ++ l2, ?_, ?_, ?_, ?_, ?_, hsub.trans hsub1, ?_, ?_⟩
    · simp only [visit, hr1, bind_ret]
      exact hr
    · rw [htr, htr1, List.append_assoc]
    · rw [htty, htty1]
    · rw [List.filter_append, hmsg1, hmsg2]; rfl
    · intro hc
      rw [List.filter_append, hpr0 hc]
      rcases hcase with ⟨_, _, hp⟩ | ⟨_, _, hp⟩
      · rw [hp]; simp [hc]
      · rw [hp]; simp [hc]
    · intro k hk
      have hk1 : k ≠ h := fun e => hk (e ▸ List.mem_cons_self _ _)
      have hk2 : k ∉ hs := fun e => hk (List.mem_cons_of_mem _ e)
      rw [hunv k hk2, hderef1 k hk1]
    · intro hall
      have hwh := hall h (List.mem_cons_self _ _) j hd s.trace
      rcases hcase with ⟨_, hj1, hp1⟩ | ⟨hw, _, _⟩
      · have hall1 : ∀ k ∈ hs, ∀ j, t1.jobs.deref k = some j →
            ∀ hist, (env.waitpid hist j.pid .WNOHANG).1 = j.pid := by
          intro k hk j' hd'
          rw [hderef1 k (hne k hk)] at hd'
          exact hall k (List.mem_cons_of_mem _ hk) j' hd'
        obtain ⟨hjobs, hprints⟩ := hfin hall1
        constructor
        · rw [hjobs, hj1, List.filter_filter]
          apply List.filter_congr
          intro x _
          by_cases hx : x.jid = h <;> simp [hx, hnotin]
        · intro hc
          rw [List.filter_append, hp1, hprints hc]
          have hpos : choice > 0 := by omega
          simp only [hpos, if_true, List.filterMap_cons, hd, Option.map_some',
            List.singleton_append]
          congr 1
          apply List.filterMap_congr
          intro k hk
          rw [hderef1 k (hne k hk)]
      · exact absurd hwh hw

theorem visit_print (l : List Job) :
    ∀ s : Shell, (∀ j ∈ l, s.jobs.deref j.jid = some j) →
      visit job_print (l.map Job.jid) s
        = .ret () ⟨s.jobs, s.tty, s.trace ++ l.map Event.job_print⟩ := by
  induction l with
  | nil => intro s _; simp [visit]
  | cons a l ih =>
    intro s hl
    simp only [List.map_cons, visit]
    rw [job_print_ret _ _ a (hl a (List.mem_cons_self _ _))]
    simp only [bind_ret]
    rw [ih (log (.job_print a) s) (fun j hj => by simpa using hl j (List.mem_cons_of_mem _ hj))]
    simp

theorem wf_live (r : JobList) (hwf : r.wf) :
    ∀ h ∈ r.jobs.map Job.jid, ∃ j, r.deref h = some j ∧ 0 < j.pid := by
  intro h hh
  obtain ⟨j, hj, rfl⟩ := List.mem_map.mp hh
  exact ⟨j, deref_of_mem r hwf.1 j hj, hwf.2 j hj⟩

/-! ## Claims on `politeExit` -/

/-- C6: on a well-formed registry `politeExit` first reaps every job silently
(the pass returns, prints no job and writes no message, and keeps remaining
jobs unchanged); then it exits with status 0 exactly when the registry is empty
after that reap, and otherwise returns 1 having printed the notice and the
remaining jobs, with the flag set to 1 when a flag was supplied. With no job,
or when every job is reported terminated, it exits. -/
theorem politeExit_reaps_then_decides (env : Env) (ctrlD : Option Int) (s : Shell)
    (hwf : s.jobs.wf) :
    ∃ s1, job_iter3 0 (reapChild env) s = .ret () s1
      ∧ (emitted s s1).filter Event.isPrint = []
      ∧ (emitted s s1).filter Event.isMessage = []
      ∧ s1.jobs.jobs.Sublist s.jobs.jobs
      ∧ politeExit env ctrlD s =
          (if s1.jobs.empty then .exit 0 (log .joblist_free s1)
           else .ret (1, ctrlD.map (fun _ => 1))
             ⟨s1.jobs, s1.tty, s1.trace ++
               .printf "There are unfinished jobs.\n" :: s1.jobs.jobs.map Event.job_print⟩)
      ∧ ((s.jobs.jobs = [] ∨
            ∀ j ∈ s.jobs.jobs, ∀ hist, (env.waitpid hist j.pid .WNOHANG).1 = j.pid) →
          politeExit env ctrlD s = .exit 0 (log .joblist_free s1)) := by
  obtain ⟨s1, l, hr, htr, htty, hmsg, hpr, hsub, _, hfin⟩ :=
    visit_reap env 0 (s.jobs.jobs.map Job.jid) s hwf.1 (wf_live s.jobs hwf)
  have hnd1 : (s1.jobs.jobs.map Job.jid).Nodup := (hsub.map Job.jid).nodup hwf.1
  have hpe : politeExit env ctrlD s =
      (if s1.jobs.empty then .exit 0 (log .joblist_free s1)
       else .ret (1, ctrlD.map (fun _ => 1))
         ⟨s1.jobs, s1.tty, s1.trace ++
           .printf "There are unfinished jobs.\n" :: s1.jobs.jobs.map Event.job_print⟩) := by
    unfold politeExit job_iter3
    rw [hr]
    simp only [bind_ret]
    by_cases he : s1.jobs.empty = true
    · simp [he]
    · simp only [he, not_false_eq_true, if_true, if_false, Bool.false_eq_true, job_iter2]
      have := visit_print s1.jobs.jobs (log (.printf "There are unfinished jobs.\n") s1)
        (fun j hj => by simpa using deref_of_mem s1.jobs hnd1 j hj)
      simp only [log_jobs] at this ⊢
      rw [this]
      simp
  refine ⟨s1, hr, ?_, ?_, hsub, hpe, ?_⟩
  · rw [emitted_append s s1 l htr]; exact hpr rfl
  · rw [emitted_append s s1 l htr]; exact hmsg
  · intro hcase
    have hempty : s1.jobs.jobs = [] := by
      rcases hcase with h0 | hall
      · rw [h0] at hsub
        exact List.eq_nil_of_sublist_nil hsub
      · have h2 := (hfin (by
          intro h hh j hd hist
          exact hall j (deref_mem s.jobs h j hd).1 hist)).1
        rw [h2, List.filter_eq_nil_iff]
        intro a ha
        simpa using List.mem_map_of_mem Job.jid ha
    rw [hpe]
    simp [JobList.empty, hempty]

theorem politeExit_reaps_then_decides_witness :
    (∃ s1, job_iter3 0 (reapChild envNoStatus) shell1 = .ret () s1
      ∧ (emitted shell1 s1).filter Event.isPrint = []
      ∧ (emitted shell1 s1).filter Event.isMessage = []
      ∧ s1.jobs.jobs.Sublist shell1.jobs.jobs
      ∧ politeExit envNoStatus (some 0) shell1 =
          (if s1.jobs.empty then .exit 0 (log .joblist_free s1)
           else .ret (1, (some (0 : Int)).map (fun _ => 1))
             ⟨s1.jobs, s1.tty, s1.trace ++
               .printf "There are unfinished jobs.\n" :: s1.jobs.jobs.map Event.job_print⟩))
    ∧ (∃ s1, job_iter3 0 (reapChild envExited) shell1 = .ret () s1
      ∧ politeExit envExited none shell1 = .exit 0 (log .joblist_free s1)) :=
  ⟨(politeExit_reaps_then_decides envNoStatus (some 0) shell1 (by decide)).elim
      fun s1 h => ⟨s1, h.1, h.2.1, h.2.2.1, h.2.2.2.1, h.2.2.2.2.1⟩,
   (politeExit_reaps_then_decides envExited none shell1 (by decide)).elim
      fun s1 h => ⟨s1, h.1, h.2.2.2.2.2 (Or.inr (fun _ _ _ => rfl))⟩⟩

/-! ## The registry invariant is kept by every function of `shell.c` -/

theorem fresh_not_mem (r : JobList) : r.fresh_jid ∉ r.jobs.map Job.jid := by
  intro hm
  obtain ⟨j, hj, he⟩ := List.mem_map.mp hm
  have := jid_lt_fresh r j hj
  omega

theorem joblist_create_wf : joblist_create.wf := by
  decide

theorem wf_save (r : JobList) (pid : Int) (c : List String) (st : JobStatus)
    (hwf : r.wf) (hpid : 0 < pid) : (r.save pid c st).2.wf := by
  constructor
  · simp only [save_jobs, List.map_append, List.map_cons, List.map_nil]
    rw [List.nodup_append]
    refine ⟨hwf.1, by simp, ?_⟩
    intro a ha hb
    rw [List.mem_singleton] at hb
    exact fresh_not_mem r (hb ▸ ha)
  · intro j hj
    simp only [save_jobs, List.mem_append, List.mem_singleton] at hj
    rcases hj with hj | rfl
    · exact hwf.2 j hj
    · exact hpid

theorem wf_set_status (r : JobList) (h : Nat) (st : JobStatus) (hwf : r.wf) :
    (r.set_status h st).wf := by
  constructor
  · have : (r.set_status h st).jobs.map Job.jid = r.jobs.map Job.jid := by
      simp only [JobList.set_status, List.map_map]
      apply List.map_congr_left
      intro j _
      by_cases hj : j.jid = h <;> simp [hj]
    rw [this]; exact hwf.1
  · intro j hj
    simp only [JobList.set_status, List.mem_map] at hj
    obtain ⟨k, hk, rfl⟩ := hj
    by_cases hkh : k.jid = h
    · simpa [hkh] using hwf.2 k hk
    · simpa [hkh] using hwf.2 k hk

theorem wf_delete (r : JobList) (h : Nat) (hwf : r.wf) : (r.delete h).wf := by
  constructor
  · exact ((List.filter_sublist r.jobs).map Job.jid).nodup hwf.1
  · intro j hj
    exact hwf.2 j (List.mem_filter.mp hj).1

theorem state_bind_wf {α β : Type} (o : Outcome α) (k : α → Shell → Outcome β)
    (ho : o.state.jobs.wf) (hk : ∀ v t, t.jobs.wf → (k v t).state.jobs.wf) :
    (o.bind k).state.jobs.wf := by
  cases o with
  | ret v t => exact hk v t ho
  | exit c t => exact ho
  | abort t => exact ho
  | replaced t => exact ho

theorem job_set_status_wf (h : Nat) (st : JobStatus) (s : Shell) (hwf : s.jobs.wf) :
    (job_set_status h st s).state.jobs.wf := by
  unfold job_set_status
  cases s.jobs.deref h with
  | none => exact hwf
  | some j => exact wf_set_status s.jobs h st hwf

theorem job_delete_wf (h : Nat) (s : Shell) (hwf : s.jobs.wf) :
    (job_delete h s).state.jobs.wf := by
  unfold job_delete
  cases s.jobs.deref h with
  | none => exact hwf
  | some j => exact wf_delete s.jobs h hwf

theorem job_print_wf (h : Nat) (s : Shell) (hwf : s.jobs.wf) :
    (job_print h s).state.jobs.wf := by
  unfold job_print
  cases s.jobs.deref h with
  | none => exact hwf
  | some j => exact hwf

theorem term_give_wf (h : Nat) (s : Shell) (hwf : s.jobs.wf) :
    (term_give h s).state.jobs.wf := by
  unfold term_give
  cases s.jobs.deref h with
  | none => exact hwf
  | some j => exact hwf

theorem shell_wait_fg_wf (env : Env) (pid : Int) (s : Shell) (hwf : s.jobs.wf) :
    (shell_wait_fg env pid s).state.jobs.wf := by
  unfold shell_wait_fg
  simp only
  split_ifs <;> exact hwf

theorem reapChild_wf (env : Env) (h : Nat) (choice : Int) (s : Shell) (hwf : s.jobs.wf) :
    (reapChild env h choice s).state.jobs.wf := by
  unfold reapChild
  cases s.jobs.deref h with
  | none => exact hwf
  | some j =>
    simp only
    by_cases hp : ¬ (j.pid > 0)
    · rw [if_pos hp]; exact hwf
    · rw [if_neg hp]
      by_cases hw : j.pid = (env.waitpid s.trace j.pid .WNOHANG).1
      · rw [if_pos hw]
        refine state_bind_wf _ _ (job_set_status_wf _ _ _ hwf) (fun _ t ht => ?_)
        refine state_bind_wf _ _ ?_ (fun _ u hu => job_delete_wf _ _ hu)
        by_cases hc : choice > 0
        · rw [if_pos hc]; exact job_print_wf _ _ ht
        · rw [if_neg hc]; exact ht
      · rw [if_neg hw]
        by_cases hc : choice = 2
        · rw [if_pos hc]; exact job_print_wf _ _ hwf
        · rw [if_neg hc]; exact hwf

theorem visit_wf (f : Nat → Shell → Outcome Unit)
    (hf : ∀ h s, s.jobs.wf → (f h s).state.jobs.wf) :
    ∀ (hs : List Nat) (s : Shell), s.jobs.wf → (visit f hs s).state.jobs.wf := by
  intro hs
  induction hs with
  | nil => intro s hwf; exact hwf
  | cons h hs ih =>
    intro s hwf
    exact state_bind_wf _ _ (hf h s hwf) (fun _ t ht => ih t ht)

theorem politeExit_wf (env : Env) (ctrlD : Option Int) (s : Shell) (hwf : s.jobs.wf) :
    (politeExit env ctrlD s).state.jobs.wf := by
  unfold politeExit job_iter3
  refine state_bind_wf _ _ (visit_wf _ (fun h t ht => reapChild_wf env h 0 t ht) _ s hwf)
    (fun _ t ht => ?_)
  by_cases he : ¬ (t.jobs.empty = true)
  · rw [if_pos he]
    simp only [job_iter2]
    exact state_bind_wf _ _ (visit_wf _ (fun h u hu => job_print_wf h u hu) _ _ ht)
      (fun _ u hu => hu)
  · rw [if_neg he]; exact ht

/-- Every call of `shell_run_job` keeps the registry invariant: the only job it
saves carries the pid of a successful fork, which is positive. -/
theorem shell_run_job_wf (env : Env) (command : List String) (foreground : Int)
    (currentJob : Option Nat) (s : Shell) (hwf : s.jobs.wf) :
    (shell_run_job env command foreground currentJob s).state.jobs.wf := by
  unfold shell_run_job
  simp only
  by_cases h1 : env.fork s.trace < 0
  · rw [if_pos h1]; exact hwf
  · rw [if_neg h1]
    by_cases h2 : env.fork s.trace = 0
    · rw [if_pos h2]
      cases env.execvp (term_child_init foreground (log (.fork (env.fork s.trace)) s)).trace
        command with
      | none => exact hwf
      | some r =>
        simp only
        by_cases hr : r = -1
        · rw [if_pos hr]; exact hwf
        · rw [if_neg hr]; exact hwf
    · rw [if_neg h2]
      have hpos : 0 < env.fork s.trace := by omega
      by_cases h3 : foreground ≠ 0
      · rw [if_pos h3]
        have hc : (match currentJob with
            | none => job_save (env.fork s.trace) command .FOREGROUND
                (log (.fork (env.fork s.trace)) s)
            | some h => (h, log (.fork (env.fork s.trace)) s)).2.jobs.wf := by
          cases currentJob with
          | none => exact wf_save s.jobs _ _ _ hwf hpos
          | some h => exact hwf
        refine state_bind_wf _ _ (term_give_wf _ _ hc) (fun _ t ht => ?_)
        refine state_bind_wf _ _ (shell_wait_fg_wf env _ t ht) (fun w u hu => ?_)
        by_cases hw0 : w = 0
        · rw [if_pos hw0]
          exact state_bind_wf _ _ (job_delete_wf _ _ hu) (fun _ v hv => hv)
        · rw [if_neg hw0]
          by_cases hw1 : w = 1
          · rw [if_pos hw1]
            refine state_bind_wf _ _ (job_set_status_wf _ _ _ hu) (fun _ v hv => ?_)
            exact state_bind_wf _ _ (job_print_wf _ _ hv) (fun _ x hx => hx)
          · rw [if_neg hw1]; exact hu
      · rw [if_neg h3]
        have hc : (match currentJob with
            | none => job_save (env.fork s.trace) command .BACKGROUND
                (log (.fork (env.fork s.trace)) s)
            | some h => (h, log (.fork (env.fork s.trace)) s)).2.jobs.wf := by
          cases currentJob with
          | none => exact wf_save s.jobs _ _ _ hwf hpos
          | some h => exact hwf
        exact state_bind_wf _ _ (job_print_wf _ _ hc) (fun _ v hv => hv)

/-- Every call of `shell_builtin` keeps the registry invariant. -/
theorem shell_builtin_wf (env : Env) (command : List String) (s : Shell) (hwf : s.jobs.wf) :
    (shell_builtin env command s).state.jobs.wf := by
  unfold shell_builtin
  cases command with
  | nil => exact hwf
  | cons word rest =>
    simp only
    by_cases h1 : word = "exit"
    · rw [if_pos h1]
      exact state_bind_wf _ _ (politeExit_wf env none s hwf) (fun _ t ht => ht)
    · rw [if_neg h1]
      by_cases h2 : word = "help"
      · rw [if_pos h2]; exact hwf
      · rw [if_neg h2]
        by_cases h3 : word = "cd"
        · rw [if_pos h3]
          cases rest <;> exact hwf
        · rw [if_neg h3]
          by_cases h4 : word = "jobs"
          · rw [if_pos h4]
            unfold job_iter3
            exact state_bind_wf _ _
              (visit_wf _ (fun h t ht => reapChild_wf env h 2 t ht) _ s hwf) (fun _ t ht => ht)
          · rw [if_neg h4]
            by_cases h5 : word = "fg" ∨ word = "bg"
            · rw [if_pos h5]
              cases (match rest with
                | arg :: _ => s.jobs.get (env.strtol arg)
                | [] => s.jobs.get_current) with
              | none => exact hwf
              | some j =>
                simp only
                refine state_bind_wf _ _ ?_ (fun _ t ht => ?_)
                · by_cases h6 : (if word = "fg" then (1 : Int) else 0) ≠ 0
                  · rw [if_pos h6]; exact job_set_status_wf _ _ _ hwf
                  · rw [if_neg h6]; exact job_set_status_wf _ _ _ hwf
                · refine state_bind_wf _ _ ?_ (fun _ u hu => hu)
                  cases t.jobs.deref j.jid with
                  | none => exact ht
                  | some j1 => exact shell_run_job_wf env _ _ _ t ht
            · rw [if_neg h5]; exact hwf

/-! ## Round trip: create then reap -/

theorem save_all_spec (l : List (Int × List String × JobStatus)) :
    ∀ s : Shell, s.jobs.wf → (∀ x ∈ l, 0 < x.1) →
      (save_all l s).jobs.wf
      ∧ (save_all l s).jobs.jobs.map (fun j => (j.pid, j.command, j.status))
          = s.jobs.jobs.map (fun j => (j.pid, j.command, j.status)) ++ l := by
  induction l with
  | nil => intro s hwf _; exact ⟨hwf, by simp [save_all]⟩
  | cons x l ih =>
    intro s hwf hpos
    have hx : 0 < x.1 := hpos x (List.mem_cons_self _ _)
    have hwf1 : (job_save x.1 x.2.1 x.2.2 s).2.jobs.wf :=
      wf_save s.jobs x.1 x.2.1 x.2.2 hwf hx
    obtain ⟨h1, h2⟩ := ih (job_save x.1 x.2.1 x.2.2 s).2 hwf1
      (fun y hy => hpos y (List.mem_cons_of_mem _ hy))
    refine ⟨by simpa [save_all] using h1, ?_⟩
    have : save_all (x :: l) s = save_all l (job_save x.1 x.2.1 x.2.2 s).2 := rfl
    rw [this, h2]
    simp

/-- C8: starting from an empty registry, after creating one job per entry of a
list of N (pid, command, status) entries with positive pids and then running one
reporting reap pass (`job_iter3` with `reapChild` in mode 1) in which every
job's process is reported terminated, the registry is empty and exactly N
reports are produced, one per created job, each in status `DONE`; a second reap
pass produces nothing. -/
theorem reap_all_roundtrip (env : Env) (s0 : Shell) (l : List (Int × List String × JobStatus))
    (h0 : s0.jobs.jobs = []) (hpos : ∀ x ∈ l, 0 < x.1)
    (hfin : ∀ x ∈ l, ∀ hist, (env.waitpid hist x.1 .WNOHANG).1 = x.1) :
    (save_all l s0).jobs.jobs.map (fun j => (j.pid, j.command, j.status)) = l
    ∧ ∃ t, job_iter3 1 (reapChild env) (save_all l s0) = .ret () t
      ∧ t.jobs.jobs = []
      ∧ (emitted (save_all l s0) t).filter Event.isPrint
          = (save_all l s0).jobs.jobs.map
              (fun j => Event.job_print { j with status := .DONE })
      ∧ ((emitted (save_all l s0) t).filter Event.isPrint).length = l.length
      ∧ ∃ u, job_iter3 1 (reapChild env) t = .ret () u ∧ emitted t u = [] := by
  have hwf0 : s0.jobs.wf := by
    constructor
    · rw [h0]; exact List.nodup_nil
    · intro j hj; rw [h0] at hj; cases hj
  obtain ⟨hwf, hmap⟩ := save_all_spec l s0 hwf0 hpos
  rw [h0] at hmap
  simp only [List.map_nil, List.nil_append] at hmap
  refine ⟨hmap, ?_⟩
  obtain ⟨t, tr, hr, htr, _, _, _, _, _, hall⟩ :=
    visit_reap env 1 ((save_all l s0).jobs.jobs.map Job.jid) (save_all l s0) hwf.1
      (wf_live _ hwf)
  obtain ⟨hjobs, hprints⟩ := hall (by
    intro h _ j hd hist
    have hj := (deref_mem _ h j hd).1
    have hm : (j.pid, j.command, j.status) ∈ l := by
      rw [← hmap]
      exact List.mem_map_of_mem (fun j => (j.pid, j.command, j.status)) hj
    exact hfin _ hm hist)
  have hempty : t.jobs.jobs = [] := by
    rw [hjobs, List.filter_eq_nil_iff]
    intro a ha
    simpa using List.mem_map_of_mem Job.jid ha
  have hpr : tr.filter Event.isPrint = (save_all l s0).jobs.jobs.map
      (fun j => Event.job_print { j with status := .DONE }) := by
    rw [hprints rfl, List.filterMap_map]
    rw [← List.filterMap_eq_map]
    apply List.filterMap_congr
    intro j hj
    simp [deref_of_mem _ hwf.1 j hj]
  refine ⟨t, hr, hempty, ?_, ?_, t, ?_, ?_⟩
  · rw [emitted_append _ t tr htr]; exact hpr
  · rw [emitted_append _ t tr htr, hpr, List.length_map, ← List.length_map, hmap]
  · simp [job_iter3, hempty, visit]
  · simp [emitted]

theorem reap_all_roundtrip_witness :
    (save_all [(5, ["a"], .BACKGROUND), (6, ["b"], .STOPPED)] shell0).jobs.jobs.map
        (fun j => (j.pid, j.command, j.status))
      = [(5, ["a"], .BACKGROUND), (6, ["b"], .STOPPED)]
    ∧ ∃ t, job_iter3 1 (reapChild envExited)
          (save_all [(5, ["a"], .BACKGROUND), (6, ["b"], .STOPPED)] shell0) = .ret () t
      ∧ t.jobs.jobs = []
      ∧ (emitted (save_all [(5, ["a"], .BACKGROUND), (6, ["b"], .STOPPED)] shell0) t).filter
            Event.isPrint
          = (save_all [(5, ["a"], .BACKGROUND), (6, ["b"], .STOPPED)] shell0).jobs.jobs.map
              (fun j => Event.job_print { j with status := .DONE })
      ∧ ((emitted (save_all [(5, ["a"], .BACKGROUND), (6, ["b"], .STOPPED)] shell0) t).filter
            Event.isPrint).length
          = [((5 : Int), ["a"], JobStatus.BACKGROUND), (6, ["b"], .STOPPED)].length
      ∧ ∃ u, job_iter3 1 (reapChild envExited) t = .ret () u ∧ emitted t u = [] :=
  reap_all_roundtrip envExited shell0 [(5, ["a"], .BACKGROUND), (6, ["b"], .STOPPED)] rfl
    (by decide) (fun _ _ _ => rfl)

end ShellC
